import Mathlib

/-!
Verification development for the dnsproxy fork (rafalfr/dnsproxy).

The Go sources under `proxy/`, `utils/` and `main.go` are shallowly embedded:
Go strings are `List Char`, `[]byte` addresses are `List Nat`, DNS messages are
a structure mirroring `github.com/miekg/dns.Msg` restricted to the fields the
proxy reads and writes.  Functions of this repository that are only called
from the sources at hand (their defining file is not part of the snapshot)
are modelled from the specification document; each such definition carries a
doc comment starting with `Modelled from the spec:`.  Third-party library
functions invoked by the sources (miekg/dns message setters, golibs netutil
predicates) are embedded following their documented behaviour, or taken as
explicit function parameters where only their interface matters.
-/
namespace DnsProxy

set_option autoImplicit false

/-- Go strings are embedded as lists of characters. -/
abbrev Str := List Char

/-- The dot character used by `strings.Split(domain, ".")` and friends. -/
def dotc : Char := '.'

/-- Prepends character `c` to the first fragment of a fragment list. -/
def consHead (c : Char) : List Str → List Str
  | [] => [[c]]
  | l :: ls => (c :: l) :: ls

/-- Embedding of Go `strings.Split(s, ".")`: split at every dot, keeping
empty fragments, never returning an empty list. -/
def splitDots : Str → List Str
  | [] => [[]]
  | c :: cs => if c = dotc then [] :: splitDots cs else consHead c (splitDots cs)

/-- Joining with dots: inverse of `splitDots`, mirroring
`strings.Join(items, ".")`. -/
def joinDots : List Str → Str
  | [] => []
  | [l] => l
  | l :: ls => l ++ dotc :: joinDots ls

/-- The last label of a domain: the bucket key used by
`BlockedDomainsManager.addDomain` (item 0 after reversing the split) and by
`checkDomain` (`domainItems[len(domainItems)-1]`). -/
def lastLabel (d : Str) : Str := (splitDots d).getLastD []

/-- Embedding of Go `strings.TrimSuffix(s, ".")`. -/
def trimSuffixDot (s : Str) : Str :=
  if s.getLast? = some dotc then s.dropLast else s

/-! ## Blocked domains manager (`proxy/blocked_domains_manager.go`)

The Go `hosts` field is a `map[string]*Set`; it is embedded as an association
list from bucket key (the last label of the inserted pattern) to the list of
patterns stored in that bucket.  `Set.Insert` keeps set semantics, so the
embedding skips duplicates the same way. -/
/-- The hosts table of `BlockedDomainsManager`. -/
abbrev Hosts := List (Str × List Str)

/-- Lookup of a bucket by key (Go map indexing `r.hosts[k]`). -/
def bucketsGet (hs : Hosts) (k : Str) : Option (List Str) :=
  match hs with
  | [] => none
  | (k0, b) :: rest => if k0 = k then some b else bucketsGet rest k

/-- Insertion into the bucket of key `k` (creating the bucket when missing),
with the set semantics of `Set.Insert`. -/
def bucketsInsert (hs : Hosts) (k p : Str) : Hosts :=
  match hs with
  | [] => [(k, [p])]
  | (k0, b) :: rest =>
    if k0 = k then (k0, if p ∈ b then b else p :: b) :: rest
    else (k0, b) :: bucketsInsert rest k p

/-- Embedding of `BlockedDomainsManager.addDomain`: the pattern is split on
dots and reversed; element 0 of the reversed list (the last label of the
pattern) is the bucket key, and the full pattern string is inserted into that
bucket.  The `numDomains` counter is elided (no claim mentions it). -/
def addDomain (hs : Hosts) (domain : Str) : Hosts :=
  bucketsInsert hs (lastLabel domain) domain

/-- The hosts table obtained by inserting every pattern of `P` in order. -/
def mkHosts (P : List Str) : Hosts := P.foldl addDomain []

/-- Membership of pattern `p` in the bucket of key `k`. -/
def BucketMem (hs : Hosts) (k p : Str) : Prop :=
  ∃ b, bucketsGet hs k = some b ∧ p ∈ b

/-- Boolean membership, the embedding of `Set.Has`. -/
def memb (p : Str) (b : List Str) : Bool :=
  b.any fun q => decide (q = p)

/-- The wildcard candidate built by the inner loop of `checkDomain` at index
`i`: labels `i..` of the queried domain joined with dots (the loop appends a
trailing dot and `strings.TrimSuffix` removes it), prefixed with the two
characters `*` and the dot. -/
def tmpDomainAt (items : List Str) (i : Nat) : Str :=
  '*' :: dotc :: trimSuffixDot ((items.drop i).foldl (fun acc l => acc ++ l ++ [dotc]) [])

/-- Embedding of `BlockedDomainsManager.checkDomain`
(`proxy/blocked_domains_manager.go`, lines 67-99): exact membership in the
bucket of the queried domain's last label, then the wildcard loop over every
label offset `0 ≤ i < len(domainItems)`.  (`proxy.go` calls the two-result
revision of this method; its boolean component is identical.) -/
def checkDomain (hs : Hosts) (domain : Str) : Bool :=
  if hs.length > 0 then
    match bucketsGet hs (lastLabel domain) with
    | some blockedDomains =>
      if memb domain blockedDomains then true
      else (List.range (splitDots domain).length).any fun i =>
        memb (tmpDomainAt (splitDots domain) i) blockedDomains
    | none => false
  else false

/-- The blocklist matching relation exactly as the specification words it:
`check(d)` is true iff some inserted pattern `p` satisfies `p == d`, or
`p = "*.s"` where `d` ends in `".s"` and `d ≠ s`. -/
def specClaimedCheck (P : List Str) (d : Str) : Bool :=
  P.any fun p =>
    decide (p = d) ||
      (decide (p.take 2 = ['*', dotc]) &&
        decide ((dotc :: p.drop 2) <:+ d) &&
        decide (d ≠ p.drop 2))

/-- The wildcard pattern of the counterexample. -/
def cexPattern : Str := ['*', '.', 'a', 'd', 's', '.', 'e', 'x', 'a', 'm', 'p', 'l', 'e']

/-- The bare domain of the counterexample, equal to the wildcard suffix. -/
def cexDomain : Str := ['a', 'd', 's', '.', 'e', 'x', 'a', 'm', 'p', 'l', 'e']

/-! ## DNS message model (miekg/dns restricted to the fields the proxy uses) -/
def typeA : Nat := 1
def typeNS : Nat := 2
def typeSOA : Nat := 6
def typePTR : Nat := 12
def typeAAAA : Nat := 28
def typeOPT : Nat := 41
def typeDS : Nat := 43
def typeRRSIG : Nat := 46
def typeNSEC : Nat := 47
def typeDNSKEY : Nat := 48
def typeNSEC3 : Nat := 50
def typeANY : Nat := 255
def classINET : Nat := 1

def rcodeSuccess : Nat := 0
def rcodeSERVFAIL : Nat := 2
def rcodeNXDOMAIN : Nat := 3
def rcodeNOTIMPLEMENTED : Nat := 4

def opcodeQuery : Nat := 0

structure Question where
  name : Str
  qtype : Nat
  qclass : Nat
deriving DecidableEq

instance : Inhabited Question := ⟨⟨[], 0, 0⟩⟩

structure SubnetOption where
  family : Nat
  sourceNetmask : Nat
  sourceScope : Nat
  address : List Nat
deriving DecidableEq

inductive EDNSOption where
  | subnet (sn : SubnetOption)
  | other (code : Nat)
deriving DecidableEq

structure OptData where
  udpSize : Nat
  doBit : Bool
  options : List EDNSOption
deriving DecidableEq

structure SOAData where
  ns : Str
  mbox : Str
  serial : Nat
  refresh : Nat
  retryField : Nat
  expire : Nat
  minttl : Nat
deriving DecidableEq

inductive RData where
  | ipv4 (addr : List Nat)
  | ipv6 (addr : List Nat)
  | soa (s : SOAData)
  | opt (o : OptData)
  | generic
deriving DecidableEq

structure RRHeader where
  name : Str
  rrtype : Nat
  rrclass : Nat
  ttl : Nat
deriving DecidableEq

structure RR where
  hdr : RRHeader
  rdata : RData
deriving DecidableEq

instance : Inhabited RR := ⟨⟨⟨[], 0, 0, 0⟩, RData.generic⟩⟩

structure Msg where
  id : Nat
  response : Bool
  opcode : Nat
  truncated : Bool
  recursionDesired : Bool
  recursionAvailable : Bool
  authenticatedData : Bool
  checkingDisabled : Bool
  rcode : Nat
  question : List Question
  answer : List RR
  ns : List RR
  extra : List RR
deriving DecidableEq

/-- Embedding of miekg/dns `Msg.SetReply` (v1.1.62) applied to a zero
message, which is how every call site in the sources uses it (via
`SetRcode` on a freshly created `dns.Msg{}`). -/
def setReply (request : Msg) : Msg :=
  { id := request.id
    response := true
    opcode := request.opcode
    truncated := false
    recursionDesired := if request.opcode = opcodeQuery then request.recursionDesired else false
    recursionAvailable := false
    authenticatedData := false
    checkingDisabled := if request.opcode = opcodeQuery then request.checkingDisabled else false
    rcode := rcodeSuccess
    question := match request.question with
      | [] => []
      | q :: _ => [q]
    answer := []
    ns := []
    extra := [] }

/-- Embedding of miekg/dns `Msg.SetRcode` on a zero message. -/
def setRcode (request : Msg) (rc : Nat) : Msg :=
  { setReply request with rcode := rc }

/-- The OPT payload of an RR when it is an OPT pseudo-record. -/
def optPayload (rr : RR) : Option OptData :=
  if rr.hdr.rrtype = typeOPT then
    match rr.rdata with
    | RData.opt o => some o
    | _ => none
  else none

/-- Embedding of miekg/dns `Msg.IsEdns0`: scan the Additional section from
the end for an OPT record. -/
def isEdns0 (m : Msg) : Option OptData :=
  m.extra.reverse.findSome? optPayload

/-- Rewrites the first RR (of a list) carrying an OPT payload with `f`. -/
def mapFirstOpt (rrs : List RR) (f : OptData → OptData) : List RR :=
  match rrs with
  | [] => []
  | rr :: rest =>
    match optPayload rr with
    | some o => { rr with rdata := RData.opt (f o) } :: rest
    | none => rr :: mapFirstOpt rest f

/-- Rewrites the OPT record `IsEdns0` finds (the last one) with `f`. -/
def mapLastOpt (rrs : List RR) (f : OptData → OptData) : List RR :=
  (mapFirstOpt rrs.reverse f).reverse

/-- A fresh OPT record as miekg/dns `Msg.SetEdns0` creates it. -/
def mkOptRR (udpSize : Nat) (doB : Bool) (options : List EDNSOption) : RR :=
  ⟨⟨[dotc], typeOPT, classINET, 0⟩, RData.opt ⟨udpSize, doB, options⟩⟩

/-! ## Spec-modelled message constructors

The proxy builds its synthetic responses through the `MessageConstructor`
of `internal/dnsmsg`, whose defining file is not part of the snapshot. -/
/-- Modelled from the spec: `NewMsgSERVFAIL` of the default message
constructor (`internal/dnsmsg`, missing from the snapshot).  A SERVFAIL
response is built from the request, and by invariant 4 of the spec it keeps
the request's id and question: the standard reply setter with RCODE
SERVFAIL. -/
def newMsgSERVFAIL (req : Msg) : Msg := setRcode req rcodeSERVFAIL

/-- Modelled from the spec: `NewMsgNXDOMAIN` of the default message
constructor (missing from the snapshot): the standard reply setter with
RCODE NXDOMAIN. -/
def newMsgNXDOMAIN (req : Msg) : Msg := setRcode req rcodeNXDOMAIN

/-- Modelled from the spec: `NewMsgNOTIMPLEMENTED` of the default message
constructor (missing from the snapshot).  By invariant 5 of the spec the
NOTIMPLEMENTED response carries an OPT record; the default EDNS UDP size for
proxy-originated additions is 2048. -/
def newMsgNOTIMPLEMENTED (req : Msg) : Msg :=
  let m := setRcode req rcodeNOTIMPLEMENTED
  { m with extra := [mkOptRR 2048 false []] }

/-- Whether a message carries an OPT record in its Additional section. -/
def hasOPT (m : Msg) : Bool :=
  m.extra.any fun rr => decide (rr.hdr.rrtype = typeOPT)

/-! ## `proxy/helpers.go` -/
/-- Embedding of `genSOA` (`proxy/helpers.go`). -/
def genSOA (request : Msg) (retryV : Nat) : List RR :=
  let zone : Str := match request.question with
    | [] => []
    | q :: _ => q.name
  let mbox : Str :=
    "hostmaster.".toList ++ (if zone.length > 0 ∧ zone.headD ' ' ≠ dotc then zone else [])
  [⟨⟨zone, typeSOA, classINET, 3600⟩,
    RData.soa ⟨"fake-for-negative-caching.adguard.com.".toList, mbox, 100500, 1800,
      retryV, 604800, 86400⟩⟩]

/-- Embedding of `GenEmptyMessage` (`proxy/helpers.go`). -/
def GenEmptyMessage (request : Msg) (rCode : Nat) (retryV : Nat) : Msg :=
  let resp := setRcode request rCode
  { resp with recursionAvailable := true, ns := genSOA request retryV }

/-- A network as `ecsFromMsg`/`setECS` return it: the address together with
the CIDR mask, represented by its leading-ones count and total bit size
(Go's `net.CIDRMask(ones, bits)` is determined by exactly these two
numbers). -/
structure IPNet where
  addr : List Nat
  ones : Nat
  bits : Nat
deriving DecidableEq

/-- Embedding of Go `net.IP.To4` on byte lists. -/
def to4 (ip : List Nat) : Option (List Nat) :=
  if ip.length = 4 then some ip
  else if ip.length = 16 ∧ ip.take 10 = List.replicate 10 0 ∧ (ip.drop 10).take 2 = [255, 255] then
    some (ip.drop 12)
  else none

/-- Masks one byte, keeping its `bitsKept` high bits. -/
def maskByte (b : Nat) (bitsKept : Nat) : Nat :=
  if bitsKept ≥ 8 then b % 256 else b / 2 ^ (8 - bitsKept) * 2 ^ (8 - bitsKept)

/-- Embedding of Go `ip.Mask(net.CIDRMask(ones, 8*len(ip)))`: byte-wise AND
with the canonical mask of `ones` leading one bits. -/
def maskBytes (ip : List Nat) (ones : Nat) : List Nat :=
  (List.range ip.length).zipWith (fun j b => maskByte b (ones - 8 * j)) ip

/-- Embedding of `ecsFromMsg` (`proxy/helpers.go`): the first subnet option
of family 1 or 2 in the OPT record, as a network plus its scope. -/
def ecsFromMsg (m : Msg) : Option (IPNet × Nat) :=
  match isEdns0 m with
  | none => none
  | some o =>
    o.options.findSome? fun e =>
      match e with
      | EDNSOption.subnet sn =>
        if sn.family = 1 then
          some (⟨((to4 sn.address).getD []), sn.sourceNetmask, 32⟩, sn.sourceScope)
        else if sn.family = 2 then
          some (⟨sn.address, sn.sourceNetmask, 128⟩, sn.sourceScope)
        else none
      | EDNSOption.other _ => none

/-- Appends an EDNS option to the OPT record found by `IsEdns0`, or creates
a fresh OPT record with UDP size 4096 (as `setECS` does). -/
def addOptionToMsg (m : Msg) (e : EDNSOption) : Msg :=
  match isEdns0 m with
  | some _ => { m with extra := mapLastOpt m.extra fun o => { o with options := o.options ++ [e] } }
  | none => { m with extra := m.extra ++ [mkOptRR 4096 false [e]] }

/-- Embedding of `setECS` (`proxy/helpers.go`): family 1 with a /24 mask for
IPv4 addresses, family 2 with a /56 mask otherwise; the option's address is
the masked client address. -/
def setECS (m : Msg) (ip : List Nat) (scope : Nat) : Msg × IPNet :=
  match to4 ip with
  | some ip4 =>
    let masked := maskBytes ip4 24
    (addOptionToMsg m (EDNSOption.subnet ⟨1, 24, scope, masked⟩), ⟨masked, 24, 32⟩)
  | none =>
    let masked := maskBytes ip 56
    (addOptionToMsg m (EDNSOption.subnet ⟨2, 56, scope, masked⟩), ⟨masked, 56, 128⟩)

/-! ## Upstreams, configuration and the DNS context -/
/-- An upstream endpoint, identified by its address line. -/
structure Upstream where
  address : Str
deriving DecidableEq

/-- The upstream registry: the default list and the domain-reserved table
(suffix, as a canonical host string, to its upstream list). -/
structure UpstreamConfig where
  upstreams : List Upstream
  domainReserved : List (Str × List Upstream)
deriving DecidableEq

/-- A custom per-request upstream configuration with its own cache
enable flag (`CustomUpstreamConfig.cache == nil` in Go is `false` here). -/
structure CustomUpstreamConfig where
  upstream : UpstreamConfig
  cacheOn : Bool
deriving DecidableEq

/-- The proxy configuration fields the embedded pipeline reads.  The two
gateway addresses embed the package-level variables `GatewayIPv4` and
`GatewayIPv6` of `proxy/proxy.go` (empty means unset). -/
structure Config where
  refuseAny : Bool
  enableEDNSClientSubnet : Bool
  ednsAddr : Option (List Nat)
  cacheEnabled : Bool
  cacheMinTTL : Nat
  cacheMaxTTL : Nat
  upstreamConfig : UpstreamConfig
  privateRDNSUpstreamConfig : Option UpstreamConfig
  fallbacks : Option UpstreamConfig
  usePrivateRDNS : Bool
  useDNS64 : Bool
  dns64Prefs : List (List Nat × Nat)
  bogusNXDomain : List (List Nat)
  gatewayIPv4 : Str
  gatewayIPv6 : Str
  ratelimit : ℚ
  ratelimitPrefixV4 : Nat
  ratelimitPrefixV6 : Nat
  ratelimitWhitelist : List (List Nat)

/-- A reversed-ARPA network parsed from a PTR/SOA/NS question name
(golibs `netutil.Prefix`). -/
structure RevPref where
  addr : List Nat
  ones : Nat
deriving DecidableEq

/-- The transports of the proxy. -/
inductive Proto where
  | udp
  | tcp
  | tls
  | https
  | quic
  | dnscrypt
deriving DecidableEq

/-- The per-query context (`DNSContext`), restricted to the fields the
embedded pipeline reads and writes. -/
structure DNSContext where
  proto : Proto
  req : Msg
  res : Option Msg
  clientIP : List Nat
  upstreamAddr : Option Upstream
  requestedPrivateRDNS : Option RevPref
  isPrivateClient : Bool
  adBit : Bool
  doBit : Bool
  hasEDNS0 : Bool
  udpSize : Nat
  reqECS : Option IPNet
  customUpstreamConfig : Option CustomUpstreamConfig
deriving DecidableEq

/-- Generic association-list lookup (Go map indexing). -/
def assocGet {κ α : Type} [DecidableEq κ] : List (κ × α) → κ → Option α
  | [], _ => none
  | (k0, v) :: rest, k => if k0 = k then some v else assocGet rest k

/-- Generic association-list update (Go map assignment). -/
def assocPut {κ α : Type} [DecidableEq κ] : List (κ × α) → κ → α → List (κ × α)
  | [], k, v => [(k, v)]
  | (k0, v0) :: rest, k, v =>
    if k0 = k then (k0, v) :: rest else (k0, v0) :: assocPut rest k v

/-! ## Upstream registry lookup (spec-modelled)

`getUpstreamsForDomain` and `getUpstreamsForDS` belong to the upstream
configuration file of the proxy package, which is not part of the snapshot;
only their callers are.  They are modelled from spec section 4.D. -/
/-- All dot-suffixes of a host obtained by stripping leading labels one at a
time, longest first, stopping before the empty remainder (the registry walk
of spec 4.D). -/
def suffixCandidates (host : Str) : List Str :=
  ((List.range (splitDots host).length).map fun i =>
    joinDots ((splitDots host).drop i)).filter fun s => decide (s ≠ [])

/-- Modelled from the spec: `getUpstreamsForDomain` (missing from the
snapshot) walks the reserved-domain table right-to-left and returns the
upstream set of the longest (most specific) matching suffix; when nothing
matches it returns the default set. -/
def getUpstreamsForDomain (uc : UpstreamConfig) (host : Str) : List Upstream :=
  match (suffixCandidates host).findSome? (assocGet uc.domainReserved) with
  | some ups => ups
  | none => uc.upstreams

/-- Modelled from the spec: `getUpstreamsForDS` (missing from the snapshot)
strips one label (the parent zone) before the normal lookup; a host with at
most one label is looked up unchanged. -/
def getUpstreamsForDS (uc : UpstreamConfig) (host : Str) : List Upstream :=
  match splitDots host with
  | [] => getUpstreamsForDomain uc host
  | [_] => getUpstreamsForDomain uc host
  | _ :: rest => getUpstreamsForDomain uc (joinDots rest)

/-! ## Recursion detector (spec-modelled) -/
/-- A question fingerprint: lowercased name, type and class (spec section
3). -/
structure Fingerprint where
  name : Str
  qtype : Nat
  qclass : Nat
deriving DecidableEq

/-- The fingerprint of a message's first question. -/
def msgFingerprint (m : Msg) : Fingerprint :=
  match m.question with
  | [] => ⟨[], 0, 0⟩
  | q :: _ => ⟨q.name.map Char.toLower, q.qtype, q.qclass⟩

/-- Modelled from the spec: the recursion detector (its file is missing
from the snapshot) is a set of fingerprints of in-flight private-RDNS
requests; `check` is membership.  The TTL and size bound are elided. -/
def recCheck (st : List Fingerprint) (m : Msg) : Bool :=
  st.any fun f => decide (f = msgFingerprint m)

/-- Modelled from the spec: `add` of the recursion detector inserts the
fingerprint. -/
def recAdd (st : List Fingerprint) (m : Msg) : List Fingerprint :=
  msgFingerprint m :: st

/-! ## Rate limiter (spec-modelled)

`isRatelimited` belongs to the proxy package's ratelimit file, which is not
part of the snapshot; `handleDNSRequest` is its only caller here.  Modelled
from spec section 4.F. -/
/-- A token bucket: remaining tokens and the last refill instant. -/
structure RLBucket where
  tokens : ℚ
  last : ℚ
deriving DecidableEq

/-- The bucket table, keyed by the masked source address. -/
abbrev RLState := List (List Nat × RLBucket)

/-- Modelled from the spec: `isRatelimited` (missing from the snapshot).
Exact whitelist addresses bypass the limiter.  The bucket key is the source
address masked to the configured v4/v6 length; a missing bucket is created
full (burst = rate); on access the bucket refills by `(now-last)*rate`
capped at the burst, and one token is consumed when at least one is
available, otherwise the query is ratelimited.  A non-positive configured
rate disables the limiter. -/
def isRatelimited (cfg : Config) (st : RLState) (now : ℚ) (ip : List Nat) : Bool × RLState :=
  if cfg.ratelimit ≤ 0 then (false, st)
  else if cfg.ratelimitWhitelist.any (fun w => decide (w = ip)) then (false, st)
  else
    let ones := if ip.length = 4 then cfg.ratelimitPrefixV4 else cfg.ratelimitPrefixV6
    let key := maskBytes ip ones
    let bucket := (assocGet st key).getD ⟨cfg.ratelimit, now⟩
    let refilled := min cfg.ratelimit (bucket.tokens + (now - bucket.last) * cfg.ratelimit)
    if refilled ≥ 1 then (false, assocPut st key ⟨refilled - 1, now⟩)
    else (true, assocPut st key ⟨refilled, now⟩)

/-! ## `utils/other_utils.go` -/
/-- Embedding of `utils.GetRandomValue`: equal bounds return `min`;
otherwise `crypto/rand.Int` draws uniformly from `[0, max-min)` and `min` is
added.  The drawn value is realised as `r % (max-min)`, which ranges over
exactly the values `rand.Int` can return. -/
def GetRandomValue (lo hi : Int) (r : Nat) : Int :=
  if lo = hi then lo else lo + (r : Int) % (hi - lo)

/-- Embedding of `utils.IsLocalHost`: after dropping one trailing dot, a
host with at most one dot-separated part is local. -/
def IsLocalHost (host : Str) : Bool :=
  let h := if host.getLast? = some dotc then host.dropLast else host
  decide ((splitDots h).length ≤ 1)

/-! ## Upstream selection (`proxy/proxy.go`, `selectUpstreams`) -/
/-- The gateway upstream of the rafal branch of `selectUpstreams`: IPv6
gateway first, IPv4 second, none when both are unset.
`upstream.AddressToUpstream` succeeds on the configured non-empty literal
addresses, so its error path coincides with both gateways being unset. -/
def gatewayUpstream (cfg : Config) : Option Upstream :=
  if cfg.gatewayIPv6 ≠ [] then some ⟨cfg.gatewayIPv6⟩
  else if cfg.gatewayIPv4 ≠ [] then some ⟨cfg.gatewayIPv4⟩
  else none

/-- Byte-list membership of an address in a network given as (address,
leading-ones) with the masks the proxy uses (multiples of 8 in practice). -/
def inNet (network : List Nat) (ones : Nat) (addr : List Nat) : Bool :=
  decide (addr.length = network.length ∧ maskBytes addr ones = maskBytes network ones)

/-- Modelled from the spec: `shouldStripDNS64` (missing from the snapshot)
is true when DNS64 is enabled and the single question is a PTR for an
address inside a configured NAT64 network (spec section 4.K). -/
def shouldStripDNS64 (cfg : Config) (extractRev : Str → Option RevPref) (m : Msg) : Bool :=
  if cfg.useDNS64 then
    match m.question with
    | [q] =>
      if q.qtype = typePTR then
        match extractRev q.name with
        | some pref => cfg.dns64Prefs.any fun pr => inNet pr.1 pr.2 pref.addr
        | none => false
      else false
    | _ => false
  else false

/-- The random narrowing the rafal code applies to the configured upstream
list: `upstreams[randomIndex : randomIndex+1]` for
`randomIndex = GetRandomValue(0, len(upstreams))`. -/
def narrowRandom (ups : List Upstream) (r : Nat) : List Upstream :=
  if ups.length > 0 then
    let ri := (GetRandomValue 0 (ups.length : Int) r).toNat
    (ups.drop ri).take 1
  else ups

/-- Embedding of `Proxy.selectUpstreams` (`proxy/proxy.go`, lines 520-583):
the rafal gateway branch for hosts splitting into exactly two parts, the
private-RDNS branch, the custom-upstream branch, and the configured lookup
followed by the rafal random narrowing.  `r` is the randomness drawn by
`GetRandomValue`. -/
def selectUpstreams (cfg : Config) (extractRev : Str → Option RevPref) (d : DNSContext)
    (r : Nat) : List Upstream × Bool :=
  let q := d.req.question.headD default
  let host := q.name
  match (if (splitDots host).length = 2 then gatewayUpstream cfg else none) with
  | some gw => ([gw], true)
  | none =>
    if d.requestedPrivateRDNS.isSome || shouldStripDNS64 cfg extractRev d.req then
      match cfg.privateRDNSUpstreamConfig with
      | some pc =>
        if cfg.usePrivateRDNS && d.isPrivateClient then (getUpstreamsForDomain pc host, true)
        else ([], true)
      | none => ([], true)
    else
      let getU : UpstreamConfig → List Upstream := fun uc =>
        if q.qtype = typeDS then getUpstreamsForDS uc host else getUpstreamsForDomain uc host
      let custom : List Upstream :=
        match d.customUpstreamConfig with
        | some cu => getU cu.upstream
        | none => []
      if custom.length > 0 then (custom, false)
      else (narrowRandom (getU cfg.upstreamConfig) r, false)

/-! ## `proxy/server.go` -/
/-- Modelled from the spec: `respectTTLOverrides` (missing from the
snapshot) clamps a TTL into `[cache_min_ttl, cache_max_ttl]`; a zero bound
leaves that side unclamped. -/
def respectTTLOverrides (ttl minTTL maxTTL : Nat) : Nat :=
  if minTTL ≠ 0 ∧ ttl < minTTL then minTTL
  else if maxTTL ≠ 0 ∧ ttl > maxTTL then maxTTL
  else ttl

/-- Embedding of `Proxy.setMinMaxTTL` (`proxy/server.go`): rewrites every
answer TTL through `respectTTLOverrides`. -/
def setMinMaxTTL (cfg : Config) (r : Msg) : Msg :=
  { r with answer := r.answer.map fun rr =>
      { rr with hdr := { rr.hdr with
          ttl := respectTTLOverrides rr.hdr.ttl cfg.cacheMinTTL cfg.cacheMaxTTL } } }

/-- Embedding of `DNSContext.isForbiddenARPA` (`proxy/server.go`, lines
189-216): for PTR/SOA/NS questions whose name parses as a reversed address
inside the private networks, the context records the requested network and
the request is forbidden exactly when the client is not private.
`netutil.ExtractReversedAddr` of golibs is the `extractRev` parameter. -/
def isForbiddenARPA (privateNets : List Nat → Bool) (extractRev : Str → Option RevPref)
    (d : DNSContext) : Bool × DNSContext :=
  let q := d.req.question.headD default
  if q.qtype = typePTR ∨ q.qtype = typeSOA ∨ q.qtype = typeNS then
    match extractRev q.name with
    | none => (false, d)
    | some pref =>
      if privateNets pref.addr then
        (!d.isPrivateClient, { d with requestedPrivateRDNS := some pref })
      else (false, d)
  else (false, d)

/-- Embedding of `Proxy.validateRequest` (`proxy/server.go`, lines
156-184): the four checks in source order, each returning its synthetic
response. -/
def validateRequest (cfg : Config) (privateNets : List Nat → Bool)
    (extractRev : Str → Option RevPref) (recSt : List Fingerprint)
    (d : DNSContext) : Option Msg × DNSContext :=
  if d.req.question.length ≠ 1 then (some (newMsgSERVFAIL d.req), d)
  else if cfg.refuseAny && decide ((d.req.question.headD default).qtype = typeANY) then
    (some (newMsgNOTIMPLEMENTED d.req), d)
  else if recCheck recSt d.req then (some (newMsgNXDOMAIN d.req), d)
  else
    let fd := isForbiddenARPA privateNets extractRev d
    if fd.1 then (some (newMsgNXDOMAIN fd.2.req), fd.2) else (none, fd.2)

/-! ## `proxy/proxy.go`: the resolve pipeline -/
/-- The `retryNoError` constant of the rafal code. -/
def retryNoError : Nat := 60

/-- Embedding of `DNSContext.processECS` minus the request rewriting: the
branch taken when no non-zero-prefix ECS option is present.  `isSpecial` is
golibs `netutil.IsSpecialPurpose`. -/
def processECSAdd (isSpecial : List Nat → Bool) (ednsAddr : Option (List Nat))
    (d : DNSContext) : DNSContext :=
  let cliIP := ednsAddr.getD d.clientIP
  if isSpecial cliIP then d
  else
    let rs := setECS d.req cliIP 0
    { d with req := rs.1, reqECS := some rs.2 }

/-- Embedding of `DNSContext.processECS` (`proxy/proxy.go`, lines
862-888): an incoming ECS option with a non-zero source prefix is recorded
and passed through; otherwise, for a non-special-purpose client address,
an ECS option with scope 0 is added to the request. -/
def processECS (isSpecial : List Nat → Bool) (ednsAddr : Option (List Nat))
    (d : DNSContext) : DNSContext :=
  match ecsFromMsg d.req with
  | some (ecs, _) =>
    if ecs.ones ≠ 0 then { d with reqECS := some ecs }
    else processECSAdd isSpecial ednsAddr d
  | none => processECSAdd isSpecial ednsAddr d

/-- Embedding of `addDO` (`proxy/proxy.go`): sets the DO bit on the
existing OPT record, or creates one with UDP size `defaultUDPBufSize =
2048` and DO set. -/
def addDO (m : Msg) : Msg :=
  match isEdns0 m with
  | some o =>
    if o.doBit then m
    else { m with extra := mapLastOpt m.extra fun od => { od with doBit := true } }
  | none => { m with extra := m.extra ++ [mkOptRR 2048 true []] }

/-- Embedding of `Proxy.cacheWorks` (`proxy/proxy.go`): the four
disqualifying cases in source order. -/
def cacheWorks (cfg : Config) (d : DNSContext) : Bool :=
  let customNoCache : Bool :=
    match d.customUpstreamConfig with
    | some cu => !cu.cacheOn
    | none => false
  if cfg.cacheEnabled = false then false
  else if d.requestedPrivateRDNS.isSome then false
  else if customNoCache then false
  else if d.req.checkingDisabled then false
  else true

/-- Modelled from the spec: `calcFlagsAndSize` (missing from the snapshot)
records in the context whether the request carries EDNS0, its DO bit and
advertised UDP size, and the request's AD flag. -/
def calcFlagsAndSize (d : DNSContext) : DNSContext :=
  match isEdns0 d.req with
  | some o =>
    { d with
      hasEDNS0 := true
      doBit := o.doBit
      udpSize := o.udpSize
      adBit := d.req.authenticatedData }
  | none =>
    { d with
      hasEDNS0 := false
      doBit := false
      udpSize := 0
      adBit := d.req.authenticatedData }

/-- The synthetic blocked-domain response the rafal code of `Resolve`
builds (`proxy/proxy.go`, lines 736-752): an empty NOERROR message with SOA
authority, the request's id, a single A `0.0.0.0` (or AAAA `::`) answer
with TTL 3600 named after the trimmed query domain, and the request's
question section. -/
def mkBlockedResponse (req : Msg) (queryDomain : Str) (t : Nat) : Msg :=
  let r := GenEmptyMessage req rcodeSuccess retryNoError
  let r := { r with id := req.id }
  let ans : RR :=
    if t = typeA then
      ⟨⟨queryDomain ++ [dotc], typeA, classINET, 3600⟩, RData.ipv4 [0, 0, 0, 0]⟩
    else
      ⟨⟨queryDomain ++ [dotc], typeAAAA, classINET, 3600⟩, RData.ipv6 (List.replicate 16 0)⟩
  { r with answer := [ans], question := req.question }

/-- The blocked-domain loop of `Resolve` over the question section: for
every A/AAAA question the name is trimmed of one trailing dot and checked
against the blocklist; a hit builds the synthetic response and the last
A/AAAA name is retained (the statistics-manager updates are elided, they do
not affect the response). -/
def blockedScan (hs : Hosts) (req : Msg) : Option Msg × Str :=
  req.question.foldl
    (fun acc rr =>
      if rr.qtype = typeA ∨ rr.qtype = typeAAAA then
        let qd := trimSuffixDot rr.name
        if checkDomain hs qd then (some (mkBlockedResponse req qd rr.qtype), qd)
        else (acc.1, qd)
      else acc)
    (none, [])

/-- Embedding of `Proxy.handleExchangeResult` (`proxy/proxy.go`, lines
653-675): a missing response becomes SERVFAIL with `hasEDNS0 = false`;
otherwise the response is stored with clamped TTLs and, when the upstream
returned an empty question section while the request has one, the question
is reconstructed from the request. -/
def handleExchangeResult (cfg : Config) (d : DNSContext) (req : Msg)
    (resp : Option Msg) (u : Option Upstream) : DNSContext :=
  match resp with
  | none => { d with res := some (newMsgSERVFAIL req), hasEDNS0 := false }
  | some rsp =>
    let rsp := setMinMaxTTL cfg rsp
    let rsp :=
      if req.question.length > 0 ∧ rsp.question.length = 0 then
        { rsp with question := [req.question.headD default] }
      else rsp
    { d with upstreamAddr := u, res := some rsp }

/-- Modelled from the spec: `isBogusNXDomain` (missing from the snapshot)
is true when some answered address lies in the configured bogus-NXDOMAIN
list; a missing response is never bogus.  List entries are exact addresses
here, which is all the claims exercise. -/
def isBogusNXDomain (cfg : Config) (resp : Option Msg) : Bool :=
  match resp with
  | none => false
  | some r =>
    r.answer.any fun rr =>
      match rr.rdata with
      | RData.ipv4 a => cfg.bogusNXDomain.any fun ip => decide (ip = a)
      | RData.ipv6 a => cfg.bogusNXDomain.any fun ip => decide (ip = a)
      | _ => false

/-- Modelled from the spec: `performDNS64` (missing from the snapshot),
spec section 4.K.  When DNS64 is enabled, the single question is AAAA and
the response has no AAAA answers, the A answers of the re-issued type-A
query (`aResp`) are mapped into the first NAT64 network; the boolean
reports whether synthesis happened. -/
def performDNS64 (cfg : Config) (req : Msg) (resp : Option Msg)
    (aResp : Option Msg) : Option Msg × Bool :=
  if cfg.useDNS64 = false then (resp, false)
  else
    match resp, req.question with
    | some r, [q] =>
      if q.qtype = typeAAAA ∧ r.answer.all (fun rr => decide (rr.hdr.rrtype ≠ typeAAAA)) then
        match aResp, cfg.dns64Prefs with
        | some ar, pr :: _ =>
          let synth := ar.answer.filterMap fun rr =>
            match rr.rdata with
            | RData.ipv4 a =>
              some ⟨⟨rr.hdr.name, typeAAAA, classINET, rr.hdr.ttl⟩,
                RData.ipv6 (pr.1.take 12 ++ a)⟩
            | _ => none
          if synth.length > 0 then (some { r with answer := synth }, true) else (resp, false)
        | _, _ => (resp, false)
      else (resp, false)
    | _, _ => (resp, false)

/-- The external collaborators of the pipeline: library predicates and the
network-effect results (upstream exchanges, cache lookups) taken as
parameters. -/
structure Externals where
  privateNets : List Nat → Bool
  extractRev : Str → Option RevPref
  isSpecial : List Nat → Bool
  beforeAllow : Bool
  cacheLookup : Msg → Option Msg
  exchange : List Upstream → Msg → Option Msg × Option Upstream × Bool
  fallbackExchange : List Upstream → Msg → Option Msg × Option Upstream × Bool
  aRespDNS64 : Option Msg

/-- The outcome of `replyFromUpstream`: the updated context, whether the
response actually came from an upstream (`ok`), whether the exchange step
was invoked at all, and the recursion-detector state. -/
structure UpstreamReply where
  d : DNSContext
  ok : Bool
  attempted : Bool
  recSt : List Fingerprint

/-- Embedding of `Proxy.replyFromUpstream` (`proxy/proxy.go`, lines
585-648): select upstreams (NXDOMAIN when none), register private requests
with the recursion detector, exchange, apply DNS64 and bogus-NXDOMAIN
rewriting, consult the fallbacks on error for non-private requests, and
hand the result to `handleExchangeResult`.  The upstream-statistics
collection is elided. -/
def replyFromUpstream (cfg : Config) (ext : Externals) (d : DNSContext) (r : Nat)
    (recSt : List Fingerprint) : UpstreamReply :=
  let req := d.req
  let sel := selectUpstreams cfg ext.extractRev d r
  let ups := sel.1
  let isPrivate := sel.2
  if ups.length = 0 then
    ⟨{ d with res := some (newMsgNXDOMAIN req) }, false, false, recSt⟩
  else
    let recSt2 := if isPrivate then recAdd recSt req else recSt
    let ex := ext.exchange ups req
    let resp := ex.1
    let u := ex.2.1
    let errFlag := ex.2.2
    let d64 := performDNS64 cfg req resp ext.aRespDNS64
    let resp3 :=
      if !d64.2 && isBogusNXDomain cfg d64.1 then some (newMsgNXDOMAIN req) else d64.1
    let fin :=
      if errFlag && !isPrivate && cfg.fallbacks.isSome then
        match cfg.fallbacks with
        | some fb =>
          ext.fallbackExchange (getUpstreamsForDomain fb (req.question.headD default).name) req
        | none => (resp3, u, errFlag)
      else (resp3, u, errFlag)
    ⟨handleExchangeResult cfg d req fin.1 fin.2.1, fin.1.isSome, true, recSt2⟩

/-- Modelled from the spec: `filterMsg` (missing from the snapshot)
filters the record sections by the requested AD/DO bits: DNSSEC-specific
records are dropped unless the DO bit was requested, and the AD flag is kept
only when requested; other records pass through. -/
def isDNSSECType (t : Nat) : Bool :=
  decide (t = typeRRSIG) || decide (t = typeNSEC) || decide (t = typeNSEC3) ||
    decide (t = typeDNSKEY)

/-- One section filtered by the DO bit. -/
def filterRRList (doB : Bool) (rrs : List RR) : List RR :=
  rrs.filter fun rr => !isDNSSECType rr.hdr.rrtype || doB

/-- Modelled from the spec: `filterMsg`, see `isDNSSECType`. -/
def filterMsg (m : Msg) (adB doB : Bool) : Msg :=
  { m with
    answer := filterRRList doB m.answer
    ns := filterRRList doB m.ns
    extra := filterRRList doB m.extra
    authenticatedData := m.authenticatedData && adB }

/-- The rafal localhost rewrite of `Resolve` (`proxy/proxy.go`, lines
793-799): when the first answer is AAAA and the retained query domain is
local, every AAAA answer's address is replaced by `::` (the source's type
assertion expects all answers to be AAAA records there). -/
def localhostAAAARewrite (d : DNSContext) (queryDomain : Str) : DNSContext :=
  match d.res with
  | some m =>
    if m.answer.length > 0 ∧ (m.answer.headD default).hdr.rrtype = typeAAAA then
      if IsLocalHost queryDomain then
        { d with res := some { m with answer := m.answer.map fun rr =>
            if rr.hdr.rrtype = typeAAAA then
              { rr with rdata := RData.ipv6 (List.replicate 16 0) }
            else rr } }
      else d
    else d
  | none => d

/-- The final filtering step of `Resolve`: `filterMsg` on the response when
one is present.  The `scrub` serialization/truncation step is a
wire-encoding concern and is elided. -/
def finishResolve (d : DNSContext) : DNSContext :=
  match d.res with
  | some m => { d with res := some (filterMsg m d.adBit d.doBit) }
  | none => d

/-- The outcome of `Resolve`: the context, whether an upstream exchange was
invoked, and the recursion-detector state. -/
structure ResolveOut where
  d : DNSContext
  exchanged : Bool
  recSt : List Fingerprint

/-- Embedding of `Proxy.Resolve` (`proxy/proxy.go`, lines 693-828): ECS
processing when enabled, flag calculation, the rafal blocked-domain scan
(which skips cache and upstream entirely on a hit), the cache lookup with
`addDO` on miss, the upstream exchange, the rafal localhost-AAAA rewrite,
and the final record filtering.  The cache store (`cacheResp`) and the
statistics updates are elided: they do not alter the response.  -/
def Resolve (cfg : Config) (ext : Externals) (hs : Hosts) (d : DNSContext) (r : Nat)
    (recSt : List Fingerprint) : ResolveOut :=
  let d := if cfg.enableEDNSClientSubnet then processECS ext.isSpecial cfg.ednsAddr d else d
  let d := calcFlagsAndSize d
  let bs := blockedScan hs d.req
  match bs.1 with
  | some rmsg =>
    ⟨finishResolve { d with res := some rmsg, upstreamAddr := none }, false, recSt⟩
  | none =>
    let cw := cacheWorks cfg d
    match (if cw then ext.cacheLookup d.req else none) with
    | some cached => ⟨{ d with res := some cached }, false, recSt⟩
    | none =>
      let d := if cw then { d with req := addDO d.req } else d
      let rep := replyFromUpstream cfg ext d r recSt
      let d2 := localhostAAAARewrite rep.d bs.2
      ⟨finishResolve d2, rep.attempted, rep.recSt⟩

/-- The observable outcome of `handleDNSRequest`: the message written back
to the client (`none` means nothing is written), whether an upstream
exchange was invoked, and the updated limiter/detector states. -/
structure HandleOut where
  sent : Option Msg
  exchanged : Bool
  rl : RLState
  recSt : List Fingerprint
  d : DNSContext

/-- The part of `handleDNSRequest` after the rate-limit gate: validation,
then `Resolve` when no synthetic response was produced, then `respond`
(which writes `d.Res` when it is set). -/
def handleAfterGate (cfg : Config) (ext : Externals) (hs : Hosts) (d : DNSContext)
    (r : Nat) (rl : RLState) (recSt : List Fingerprint) : HandleOut :=
  let v := validateRequest cfg ext.privateNets ext.extractRev recSt d
  match v.1 with
  | some resp =>
    let d3 := { v.2 with res := some resp }
    ⟨d3.res, false, rl, recSt, d3⟩
  | none =>
    let out := Resolve cfg ext hs v.2 r recSt
    ⟨out.d.res, out.exchanged, rl, out.recSt, out.d⟩

/-- Embedding of `Proxy.handleDNSRequest` (`proxy/server.go`, lines
109-152): response packets are dropped; the client's privacy is computed;
the before-request handler may veto; the rate limiter is consulted for UDP
only and a ratelimited query is dropped without a response; then
validation and resolution.  The logging calls are elided. -/
def handleDNSRequest (cfg : Config) (ext : Externals) (hs : Hosts) (d : DNSContext)
    (r : Nat) (rl : RLState) (recSt : List Fingerprint) (now : ℚ) : HandleOut :=
  if d.req.response then ⟨none, false, rl, recSt, d⟩
  else
    let d := { d with isPrivateClient := ext.privateNets d.clientIP }
    if !ext.beforeAllow then ⟨none, false, rl, recSt, d⟩
    else if d.proto = Proto.udp then
      let rlres := isRatelimited cfg rl now d.clientIP
      if rlres.1 then ⟨none, false, rlres.2, recSt, d⟩
      else handleAfterGate cfg ext hs d r rlres.2 recSt
    else handleAfterGate cfg ext hs d r rl recSt

/-! ## Concrete fixtures for witnesses and counterexamples -/
/-- A plain query message with a single question. -/
def mkQuery (idv : Nat) (name : Str) (t : Nat) : Msg :=
  { id := idv
    response := false
    opcode := opcodeQuery
    truncated := false
    recursionDesired := true
    recursionAvailable := false
    authenticatedData := false
    checkingDisabled := false
    rcode := 0
    question := [⟨name, t, classINET⟩]
    answer := []
    ns := []
    extra := [] }

/-- A fresh per-query context. -/
def mkCtx (p : Proto) (m : Msg) (ip : List Nat) : DNSContext :=
  { proto := p
    req := m
    res := none
    clientIP := ip
    upstreamAddr := none
    requestedPrivateRDNS := none
    isPrivateClient := false
    adBit := false
    doBit := false
    hasEDNS0 := false
    udpSize := 0
    reqECS := none
    customUpstreamConfig := none }

/-- A configuration with everything off and the given upstreams/ratelimit. -/
def mkConfig (ups : List Upstream) (rate : ℚ) : Config :=
  { refuseAny := false
    enableEDNSClientSubnet := false
    ednsAddr := none
    cacheEnabled := false
    cacheMinTTL := 0
    cacheMaxTTL := 0
    upstreamConfig := ⟨ups, []⟩
    privateRDNSUpstreamConfig := none
    fallbacks := none
    usePrivateRDNS := false
    useDNS64 := false
    dns64Prefs := []
    bogusNXDomain := []
    gatewayIPv4 := []
    gatewayIPv6 := []
    ratelimit := rate
    ratelimitPrefixV4 := 24
    ratelimitPrefixV6 := 56
    ratelimitWhitelist := [] }

/-- External collaborators whose exchanges always fail and whose parsers
find nothing. -/
def extNull : Externals :=
  { privateNets := fun _ => false
    extractRev := fun _ => none
    isSpecial := fun _ => false
    beforeAllow := true
    cacheLookup := fun _ => none
    exchange := fun _ _ => (none, none, true)
    fallbackExchange := fun _ _ => (none, none, true)
    aRespDNS64 := none }

/-- A three-label FQDN used by several fixtures. -/
def hostABC : Str := ['a', '.', 'b', '.', 'c', '.']

/-- Two distinct upstreams. -/
def upsA : Upstream := ⟨['u', '1']⟩

/-- Two distinct upstreams. -/
def upsB : Upstream := ⟨['u', '2']⟩

/-- A host splitting into exactly two dot-parts, triggering the gateway
branch of `selectUpstreams`. -/
def hostAB : Str := ['a', '.', 'b']

/-- The two-upstream configuration with an IPv4 gateway set. -/
def gwConfig : Config := { mkConfig [upsA, upsB] 0 with gatewayIPv4 := ['g', 'w'] }

/-- The upstream built from `gwConfig`'s IPv4 gateway address. -/
def gwUps : Upstream := ⟨['g', 'w']⟩

/-- An exhausted token bucket for the /24 of `9.9.9.x` at instant 0. -/
def rlExhausted : RLState := [([9, 9, 9, 0], ⟨0, 0⟩)]

/-! # Claim C9: EDNS Client Subnet -/
/-- All subnet options carried by a message's OPT records. -/
def msgECSOptions (m : Msg) : List SubnetOption :=
  (m.extra.map fun rr =>
    match optPayload rr with
    | some o =>
      o.options.filterMap fun e =>
        match e with
        | EDNSOption.subnet sn => some sn
        | EDNSOption.other _ => none
    | none => []).join

/-- The IANA special-purpose IPv4 registry, as golibs `netutil` uses it. -/
def specialPurposeV4 : List (List Nat × Nat) :=
  [([0, 0, 0, 0], 8), ([10, 0, 0, 0], 8), ([100, 64, 0, 0], 10), ([127, 0, 0, 0], 8),
    ([169, 254, 0, 0], 16), ([172, 16, 0, 0], 12), ([192, 0, 0, 0], 24), ([192, 0, 2, 0], 24),
    ([192, 88, 99, 0], 24), ([192, 168, 0, 0], 16), ([198, 18, 0, 0], 15),
    ([198, 51, 100, 0], 24), ([203, 0, 113, 0], 24), ([224, 0, 0, 0], 4), ([240, 0, 0, 0], 4),
    ([255, 255, 255, 255], 32)]

/-- The IANA special-purpose IPv6 registry, as golibs `netutil` uses it. -/
def specialPurposeV6 : List (List Nat × Nat) :=
  [(List.replicate 16 0, 128), (List.replicate 15 0 ++ [1], 128),
    ([0, 100, 255, 155] ++ List.replicate 12 0, 96), ([1, 0] ++ List.replicate 14 0, 64),
    ([32, 1] ++ List.replicate 14 0, 23), ([32, 1, 13, 184] ++ List.replicate 12 0, 32),
    ([252] ++ List.replicate 15 0, 7), ([254, 128] ++ List.replicate 14 0, 10),
    ([255] ++ List.replicate 15 0, 8)]

/-- Embedding of the third-party golibs `netutil.IsSpecialPurpose`:
membership of the address in the IANA special-purpose registries. -/
def netutilIsSpecialPurpose (ip : List Nat) : Bool :=
  if ip.length = 4 then specialPurposeV4.any fun pr => inNet pr.1 pr.2 ip
  else specialPurposeV6.any fun pr => inNet pr.1 pr.2 ip

/-! # Theorems -/

theorem splitDots_ne_nil (s : Str) : splitDots s ≠ [] := by
  cases s with
  | nil => simp [splitDots]
  | cons c cs =>
    simp only [splitDots]
    by_cases h : c = dotc
    · simp [h]
    · simp only [h, if_false]
      cases splitDots cs <;> simp [consHead]

theorem joinDots_cons (l : Str) (ls : List Str) (h : ls ≠ []) :
    joinDots (l :: ls) = l ++ dotc :: joinDots ls := by
  cases ls with
  | nil => exact absurd rfl h
  | cons a as => rfl

theorem joinDots_splitDots (s : Str) : joinDots (splitDots s) = s := by
  induction s with
  | nil => simp [splitDots, joinDots]
  | cons c cs ih =>
    simp only [splitDots]
    by_cases h : c = dotc
    · simp only [h, if_true]
      rw [joinDots_cons _ _ (splitDots_ne_nil cs), ih]
      simp [h]
    · simp only [h, if_false]
      cases hcs : splitDots cs with
      | nil => exact absurd hcs (splitDots_ne_nil cs)
      | cons l ls =>
        rw [hcs] at ih
        cases ls with
        | nil =>
          simp only [joinDots] at ih
          simp [consHead, joinDots, ih]
        | cons l2 ls2 =>
          rw [joinDots_cons _ _ (by simp)] at ih
          simp only [consHead]
          rw [joinDots_cons _ _ (by simp)]
          simpa using ih

theorem splitDots_append_dot (t s : Str) :
    splitDots (t ++ dotc :: s) = splitDots t ++ splitDots s := by
  induction t with
  | nil => simp [splitDots]
  | cons c cs ih =>
    by_cases h : c = dotc
    · subst h
      simp [splitDots, ih]
    · have lhs : splitDots ((c :: cs) ++ dotc :: s) = consHead c (splitDots (cs ++ dotc :: s)) := by
        simp [splitDots, h]
      have rhs : splitDots (c :: cs) = consHead c (splitDots cs) := by
        simp [splitDots, h]
      rw [lhs, rhs, ih]
      cases hcs : splitDots cs with
      | nil => exact absurd hcs (splitDots_ne_nil cs)
      | cons l ls => simp [consHead]

theorem joinDots_append (a b : List Str) (ha : a ≠ []) (hb : b ≠ []) :
    joinDots (a ++ b) = joinDots a ++ dotc :: joinDots b := by
  induction a with
  | nil => exact absurd rfl ha
  | cons l ls ih =>
    cases ls with
    | nil =>
      rw [List.singleton_append, joinDots_cons _ _ hb]
      simp [joinDots]
    | cons l2 ls2 =>
      rw [List.cons_append, joinDots_cons _ _ (by simp), joinDots_cons _ _ (by simp)]
      rw [ih (by simp)]
      simp

theorem lastLabel_append_dot (t s : Str) : lastLabel (t ++ dotc :: s) = lastLabel s := by
  unfold lastLabel
  rw [splitDots_append_dot]
  rw [List.getLastD_eq_getLast? , List.getLastD_eq_getLast?, List.getLast?_append_of_ne_nil]
  exact splitDots_ne_nil s

theorem trimSuffixDot_append_dot (s : Str) : trimSuffixDot (s ++ [dotc]) = s := by
  unfold trimSuffixDot
  simp

theorem bucketMem_insert (hs : Hosts) (k0 p0 k p : Str) :
    BucketMem (bucketsInsert hs k0 p0) k p ↔
      BucketMem hs k p ∨ (k = k0 ∧ p = p0) := by
  induction hs with
  | nil =>
    simp only [bucketsInsert, BucketMem, bucketsGet]
    constructor
    · rintro ⟨b, hb, hp⟩
      by_cases hk : k0 = k
      · simp only [hk, if_true, Option.some.injEq] at hb
        subst hb
        simp only [List.mem_singleton] at hp
        exact Or.inr ⟨hk.symm, hp⟩
      · simp [hk] at hb
    · rintro (⟨b, hb, _⟩ | ⟨hk, hp⟩)
      · simp at hb
      · subst hk
        subst hp
        refine ⟨[p], ?_, ?_⟩
        · simp
        · simp
  | cons hd rest ih =>
    obtain ⟨k1, b1⟩ := hd
    simp only [bucketsInsert]
    by_cases h10 : k1 = k0
    · simp only [h10, if_true]
      by_cases h1k : k0 = k
      · subst h1k
        simp only [BucketMem, bucketsGet, if_true, Option.some.injEq]
        constructor
        · rintro ⟨b, hb, hp⟩
          subst hb
          by_cases hmem : p0 ∈ b1
          · simp only [hmem, if_true] at hp
            exact Or.inl ⟨b1, rfl, hp⟩
          · simp only [hmem, if_false, List.mem_cons] at hp
            rcases hp with hp | hp
            · exact Or.inr ⟨by simp, hp⟩
            · exact Or.inl ⟨b1, rfl, hp⟩
        · rintro (⟨b, hb, hp⟩ | ⟨_, hp⟩)
          · subst hb
            refine ⟨_, rfl, ?_⟩
            by_cases hmem : p0 ∈ b1 <;> simp [hmem, hp]
          · subst hp
            refine ⟨_, rfl, ?_⟩
            by_cases hmem : p ∈ b1 <;> simp [hmem]
      · have h1k' : ¬k0 = k := h1k
        simp only [BucketMem, bucketsGet, h1k', if_false]
        constructor
        · rintro ⟨b, hb, hp⟩
          exact Or.inl ⟨b, hb, hp⟩
        · rintro (⟨b, hb, hp⟩ | ⟨hk, _⟩)
          · exact ⟨b, hb, hp⟩
          · exact absurd hk.symm h1k
    · simp only [h10, if_false]
      by_cases h1k : k1 = k
      · simp only [BucketMem, bucketsGet, h1k, if_true, Option.some.injEq]
        constructor
        · rintro ⟨b, hb, hp⟩
          exact Or.inl ⟨b, hb, hp⟩
        · rintro (⟨b, hb, hp⟩ | ⟨hk, hp⟩)
          · exact ⟨b, hb, hp⟩
          · exact absurd (h1k.trans hk) h10
      · simp only [BucketMem, bucketsGet, h1k, if_false]
        exact ih

theorem bucketMem_mkHosts_aux (P : List Str) (hs : Hosts) (k p : Str) :
    BucketMem (P.foldl addDomain hs) k p ↔
      BucketMem hs k p ∨ (p ∈ P ∧ k = lastLabel p) := by
  induction P generalizing hs with
  | nil => simp
  | cons d rest ih =>
    simp only [List.foldl_cons, ih, addDomain, bucketMem_insert]
    constructor
    · rintro ((h | ⟨hk, hp⟩) | ⟨hmem, hk⟩)
      · exact Or.inl h
      · exact Or.inr ⟨by simp [hp], by rw [hp, hk]⟩
      · exact Or.inr ⟨by simp [hmem], hk⟩
    · rintro (h | ⟨hmem, hk⟩)
      · exact Or.inl (Or.inl h)
      · rcases List.mem_cons.mp hmem with hp | hp
        · exact Or.inl (Or.inr ⟨by rw [hk, hp], hp⟩)
        · exact Or.inr ⟨hp, hk⟩

theorem bucketMem_mkHosts (P : List Str) (k p : Str) :
    BucketMem (mkHosts P) k p ↔ p ∈ P ∧ k = lastLabel p := by
  unfold mkHosts
  rw [bucketMem_mkHosts_aux]
  simp [BucketMem, bucketsGet]

theorem bucketsInsert_ne_nil (hs : Hosts) (k p : Str) : bucketsInsert hs k p ≠ [] := by
  cases hs with
  | nil => simp [bucketsInsert]
  | cons hd rest =>
    obtain ⟨k0, b⟩ := hd
    simp only [bucketsInsert]
    by_cases h : k0 = k <;> simp [h]

theorem foldl_addDomain_ne_nil (P : List Str) (hs : Hosts) (h : hs ≠ []) :
    P.foldl addDomain hs ≠ [] := by
  induction P generalizing hs with
  | nil => exact h
  | cons d rest ih =>
    exact ih _ (bucketsInsert_ne_nil _ _ _)

theorem mkHosts_eq_nil_iff (P : List Str) : mkHosts P = [] ↔ P = [] := by
  cases P with
  | nil => simp [mkHosts]
  | cons d rest =>
    simp only [mkHosts, List.foldl_cons]
    constructor
    · intro h
      exact absurd h (foldl_addDomain_ne_nil rest _ (bucketsInsert_ne_nil _ _ _))
    · intro h
      simp at h

theorem memb_iff (p : Str) (b : List Str) : memb p b = true ↔ p ∈ b := by
  simp [memb, List.any_eq_true]

theorem foldlDots_eq (ls : List Str) (acc : Str) :
    ls ≠ [] → ls.foldl (fun a l => a ++ l ++ [dotc]) acc = acc ++ joinDots ls ++ [dotc] := by
  induction ls generalizing acc with
  | nil => intro h; exact absurd rfl h
  | cons l rest ih =>
    intro _
    cases rest with
    | nil => simp [joinDots]
    | cons l2 ls2 =>
      rw [List.foldl_cons, ih _ (by simp)]
      rw [joinDots_cons l (l2 :: ls2) (by simp)]
      simp [List.append_assoc]

theorem tmpDomainAt_eq (items : List Str) (i : Nat) (h : items.drop i ≠ []) :
    tmpDomainAt items i = '*' :: dotc :: joinDots (items.drop i) := by
  unfold tmpDomainAt
  rw [foldlDots_eq _ _ h]
  simp [trimSuffixDot_append_dot]

theorem checkDomain_iff_bucketMem (hs : Hosts) (d : Str) (hne : hs ≠ []) :
    checkDomain hs d = true ↔
      (BucketMem hs (lastLabel d) d ∨
        ∃ i, i < (splitDots d).length ∧
          BucketMem hs (lastLabel d) (tmpDomainAt (splitDots d) i)) := by
  have hlen : hs.length > 0 := by
    cases hs with
    | nil => exact absurd rfl hne
    | cons a b => simp
  unfold checkDomain
  rw [if_pos hlen]
  cases hb : bucketsGet hs (lastLabel d) with
  | none => simp [BucketMem, hb]
  | some b =>
    dsimp only
    constructor
    · intro hchk
      by_cases hm : memb d b = true
      · exact Or.inl ⟨b, hb, (memb_iff _ _).mp hm⟩
      · rw [if_neg hm, List.any_eq_true] at hchk
        obtain ⟨i, hi, hmem⟩ := hchk
        exact Or.inr ⟨i, List.mem_range.mp hi, ⟨b, hb, (memb_iff _ _).mp hmem⟩⟩
    · intro h
      by_cases hm : memb d b = true
      · rw [if_pos hm]
      · rw [if_neg hm, List.any_eq_true]
        rcases h with ⟨b2, hb2, hmem⟩ | ⟨i, hi, b2, hb2, hmem⟩
        · rw [hb] at hb2
          injection hb2 with hb2
          subst hb2
          exact absurd ((memb_iff _ _).mpr hmem) hm
        · rw [hb] at hb2
          injection hb2 with hb2
          subst hb2
          exact ⟨i, List.mem_range.mpr hi, (memb_iff _ _).mpr hmem⟩

theorem checkDomain_mkHosts_iff (P : List Str) (d : Str) :
    checkDomain (mkHosts P) d = true ↔
      (d ∈ P ∨ ∃ s, ('*' :: dotc :: s) ∈ P ∧ (d = s ∨ (dotc :: s) <:+ d)) := by
  by_cases hP : P = []
  · subst hP
    simp [checkDomain, mkHosts]
  · have hne : mkHosts P ≠ [] := fun h => hP ((mkHosts_eq_nil_iff P).mp h)
    rw [checkDomain_iff_bucketMem _ _ hne]
    constructor
    · rintro (hmem | ⟨i, hi, hmem⟩)
      · exact Or.inl ((bucketMem_mkHosts P _ _).mp hmem).1
      · obtain ⟨hp, _⟩ := (bucketMem_mkHosts P _ _).mp hmem
        have hdrop : (splitDots d).drop i ≠ [] := by
          intro hnil
          rw [List.drop_eq_nil_iff] at hnil
          omega
        rw [tmpDomainAt_eq _ _ hdrop] at hp
        refine Or.inr ⟨joinDots ((splitDots d).drop i), hp, ?_⟩
        rcases Nat.eq_zero_or_pos i with h0 | hpos
        · subst h0
          left
          rw [List.drop_zero, joinDots_splitDots]
        · right
          have htake : (splitDots d).take i ≠ [] := by
            intro hnil
            rw [List.take_eq_nil_iff] at hnil
            rcases hnil with hnil | hnil
            · omega
            · exact splitDots_ne_nil d hnil
          refine ⟨joinDots ((splitDots d).take i), ?_⟩
          have hj := joinDots_append _ _ htake hdrop
          rw [List.take_append_drop, joinDots_splitDots] at hj
          exact hj.symm
    · rintro (hp | ⟨s, hp, hds | ⟨t, ht⟩⟩)
      · exact Or.inl ((bucketMem_mkHosts P _ _).mpr ⟨hp, rfl⟩)
      · subst hds
        refine Or.inr ⟨0, List.length_pos.mpr (splitDots_ne_nil d), ?_⟩
        apply (bucketMem_mkHosts P _ _).mpr
        have hdrop : (splitDots d).drop 0 ≠ [] := by
          rw [List.drop_zero]
          exact splitDots_ne_nil d
        rw [tmpDomainAt_eq _ _ hdrop, List.drop_zero, joinDots_splitDots]
        exact ⟨hp, (lastLabel_append_dot ['*'] d).symm⟩
      · have hsplit : splitDots d = splitDots t ++ splitDots s := by
          rw [← ht, splitDots_append_dot]
        have hdrop : (splitDots d).drop (splitDots t).length = splitDots s := by
          rw [hsplit, List.drop_left]
        refine Or.inr ⟨(splitDots t).length, ?_, ?_⟩
        · rw [hsplit, List.length_append]
          have := List.length_pos.mpr (splitDots_ne_nil s)
          omega
        · apply (bucketMem_mkHosts P _ _).mpr
          rw [tmpDomainAt_eq _ _ (by rw [hdrop]; exact splitDots_ne_nil s), hdrop,
            joinDots_splitDots]

          refine ⟨hp, ?_⟩
          have h1 : lastLabel ('*' :: dotc :: s) = lastLabel s := lastLabel_append_dot ['*'] s
          have h2 : lastLabel d = lastLabel s := by
            rw [← ht]
            exact lastLabel_append_dot t s
          rw [h1, h2]

/-! # Claim C5: the blocklist matcher -/
/-- C5 counterexample: the wildcard pattern `*.ads.example` makes
`checkDomain` accept the bare domain `ads.example` itself (the wildcard
loop starts at offset 0, producing the candidate `"*." + d`), while the
claimed characterisation requires `d ≠ s` for a wildcard `*.s` and has no
other matching clause here. -/
theorem C5_counterexample :
    checkDomain (mkHosts [cexPattern]) cexDomain = true ∧
      specClaimedCheck [cexPattern] cexDomain = false :=
  ⟨by decide, by decide⟩

/-- C5 (amended): `check(d)` is true iff some inserted pattern `p`
satisfies `p = d`, or `p = "*.s"` where `d = s` or `d` ends in `".s"` —
i.e. a wildcard pattern also matches its bare suffix domain. -/
theorem C5_checkDomain_amended (P : List Str) (d : Str) :
    checkDomain (mkHosts P) d = true ↔
      (d ∈ P ∨ ∃ s, ('*' :: dotc :: s) ∈ P ∧ (d = s ∨ (dotc :: s) <:+ d)) :=
  checkDomain_mkHosts_iff P d

/-! # Claims C10 and C4: random narrowing in `selectUpstreams` -/
theorem list_drop_take_one {α : Type} (l : List α) (i : Nat) (h : i < l.length) :
    (l.drop i).take 1 = [l.get ⟨i, h⟩] := by
  induction l generalizing i with
  | nil => simp at h
  | cons a as ih =>
    cases i with
    | zero => simp
    | succ j =>
      simp only [List.drop_succ_cons]
      exact ih j (by simpa using h)

theorem getRandomValue_bounds (lo hi : Int) (r : Nat) :
    (lo = hi → GetRandomValue lo hi r = lo) ∧
    (lo < hi → lo ≤ GetRandomValue lo hi r ∧ GetRandomValue lo hi r < hi) := by
  constructor
  · intro h
    simp [GetRandomValue, h]
  · intro h
    have hne : lo ≠ hi := ne_of_lt h
    have hpos : 0 < hi - lo := by omega
    unfold GetRandomValue
    rw [if_neg hne]
    have h0 : 0 ≤ (r : Int) % (hi - lo) := Int.emod_nonneg _ (by omega)
    have h1 : (r : Int) % (hi - lo) < hi - lo := Int.emod_lt_of_pos _ hpos
    omega

theorem narrowRandom_spec (ups : List Upstream) (r : Nat) (h : ups ≠ []) :
    ∃ i, ∃ hi : i < ups.length, narrowRandom ups r = [ups.get ⟨i, hi⟩] := by
  have hlen : 0 < ups.length := List.length_pos.mpr h
  have hlt : (0 : Int) < (ups.length : Int) := by exact_mod_cast hlen
  obtain ⟨hv0, hvlt⟩ := (getRandomValue_bounds 0 (ups.length : Int) r).2 hlt
  refine ⟨(GetRandomValue 0 (ups.length : Int) r).toNat, by omega, ?_⟩
  unfold narrowRandom
  rw [if_pos hlen]
  exact list_drop_take_one ups _ (by omega)

/-- C10: `GetRandomValue` returns `min` for equal bounds and a value in
`[min, max)` otherwise, so the random narrowing of `selectUpstreams`
always computes an in-bounds index and the slice
`upstreams[randomIndex : randomIndex+1]` is exactly one element of the
original list. -/
theorem C10_randomNarrowing (lo hi : Int) (rv : Nat) (hlo : 0 ≤ lo) (hlohi : lo ≤ hi)
    (ups : List Upstream) (r : Nat) (h : ups ≠ []) :
    ((lo = hi → GetRandomValue lo hi rv = lo) ∧
      (lo < hi → lo ≤ GetRandomValue lo hi rv ∧ GetRandomValue lo hi rv < hi)) ∧
    ∃ i, ∃ hi2 : i < ups.length, i + 1 ≤ ups.length ∧
      narrowRandom ups r = [ups.get ⟨i, hi2⟩] ∧ ups.get ⟨i, hi2⟩ ∈ ups := by
  refine ⟨getRandomValue_bounds lo hi rv, ?_⟩
  obtain ⟨i, hi2, heq⟩ := narrowRandom_spec ups r h
  exact ⟨i, hi2, by omega, heq, List.get_mem _ _ _⟩

/-- Witness for C10 at concrete bounds `[0, 3)`, randomness 7 and 5, and a
two-element upstream list. -/
theorem C10_witness :
    (((0 : Int) = 3 → GetRandomValue 0 3 7 = 0) ∧
      ((0 : Int) < 3 → 0 ≤ GetRandomValue 0 3 7 ∧ GetRandomValue 0 3 7 < 3)) ∧
    ∃ i, ∃ hi2 : i < ([upsA, upsB] : List Upstream).length,
      i + 1 ≤ ([upsA, upsB] : List Upstream).length ∧
      narrowRandom [upsA, upsB] 5 = [([upsA, upsB] : List Upstream).get ⟨i, hi2⟩] ∧
      ([upsA, upsB] : List Upstream).get ⟨i, hi2⟩ ∈ [upsA, upsB] :=
  C10_randomNarrowing 0 3 7 (by decide) (by decide) [upsA, upsB] 5 (by simp)

theorem selectUpstreams_configured (cfg : Config) (er : Str → Option RevPref)
    (d : DNSContext) (r : Nat)
    (hgw : (if (splitDots (d.req.question.headD default).name).length = 2 then
      gatewayUpstream cfg else none) = none)
    (hpriv : d.requestedPrivateRDNS = none)
    (hstrip : shouldStripDNS64 cfg er d.req = false)
    (hcustom : d.customUpstreamConfig = none)
    (hds : (d.req.question.headD default).qtype ≠ typeDS) :
    selectUpstreams cfg er d r =
      (narrowRandom (getUpstreamsForDomain cfg.upstreamConfig
        (d.req.question.headD default).name) r, false) := by
  unfold selectUpstreams
  dsimp only
  rw [hgw]
  simp only [hpriv, hcustom, hstrip, Option.isSome_none, Bool.false_or]
  have hds2 : ¬(d.req.question.head?.getD default).qtype = typeDS := by
    simpa using hds
  simp [hds2]

/-- C4 counterexample: (1) with two configured default upstreams and no
reserved suffix, `selectUpstreams` returns a single-element list, not the
full registry candidate set; (2) with an IPv4 gateway set, a query for a
host splitting into two dot-parts is diverted to the gateway upstream,
which lies outside the registry candidate set. -/
theorem C4_counterexample :
    ((selectUpstreams (mkConfig [upsA, upsB] 0) (fun _ => none)
        (mkCtx Proto.udp (mkQuery 1 hostABC typeA) [9, 9, 9, 9]) 0).1 = [upsA] ∧
      getUpstreamsForDomain (mkConfig [upsA, upsB] 0).upstreamConfig hostABC = [upsA, upsB] ∧
      ([upsA] : List Upstream) ≠ [upsA, upsB]) ∧
    ((selectUpstreams gwConfig (fun _ => none)
        (mkCtx Proto.udp (mkQuery 1 hostAB typeA) [9, 9, 9, 9]) 0).1 = [gwUps] ∧
      getUpstreamsForDomain gwConfig.upstreamConfig hostAB = [upsA, upsB] ∧
      gwUps ∉ ([upsA, upsB] : List Upstream)) :=
  ⟨⟨by decide, by decide, by decide⟩, ⟨by decide, by decide, by decide⟩⟩

/-- C4 (amended): upstream selection computes the registry candidate set —
longest-suffix match or default — but (1) a host splitting into exactly two
dot-parts is diverted to the configured gateway upstream when one is set,
and (2) on the configured path (no gateway diversion, not private, no
custom upstreams, not a DS query) a non-empty candidate set is narrowed to
exactly one randomly chosen element of it before the exchange step. -/
theorem C4_selectUpstreams_amended (cfg : Config) (er : Str → Option RevPref)
    (d : DNSContext) (r : Nat) :
    (∀ gw : Upstream, (splitDots (d.req.question.headD default).name).length = 2 →
      gatewayUpstream cfg = some gw →
      selectUpstreams cfg er d r = ([gw], true)) ∧
    (((splitDots (d.req.question.headD default).name).length ≠ 2 ∨
        gatewayUpstream cfg = none) →
      d.requestedPrivateRDNS = none →
      shouldStripDNS64 cfg er d.req = false →
      d.customUpstreamConfig = none →
      (d.req.question.headD default).qtype ≠ typeDS →
      (getUpstreamsForDomain cfg.upstreamConfig (d.req.question.headD default).name = [] →
        selectUpstreams cfg er d r = ([], false)) ∧
      (getUpstreamsForDomain cfg.upstreamConfig (d.req.question.headD default).name ≠ [] →
        ∃ i, ∃ hi : i < (getUpstreamsForDomain cfg.upstreamConfig
            (d.req.question.headD default).name).length,
          selectUpstreams cfg er d r =
            ([(getUpstreamsForDomain cfg.upstreamConfig
                (d.req.question.headD default).name).get ⟨i, hi⟩], false))) := by
  constructor
  · intro gw h2 hgweq
    have hsc : (if (splitDots (d.req.question.headD default).name).length = 2 then
        gatewayUpstream cfg else none) = some gw := by
      rw [if_pos h2, hgweq]
    unfold selectUpstreams
    dsimp only
    rw [hsc]
  · intro hgw hpriv hstrip hcustom hds
    have hgw2 : (if (splitDots (d.req.question.headD default).name).length = 2 then
        gatewayUpstream cfg else none) = none := by
      rcases hgw with hne | hnone
      · rw [if_neg hne]
      · by_cases hp : (splitDots (d.req.question.headD default).name).length = 2
        · rw [if_pos hp]
          exact hnone
        · rw [if_neg hp]
    have hsel := selectUpstreams_configured cfg er d r hgw2 hpriv hstrip hcustom hds
    constructor
    · intro hbase
      rw [hsel, hbase]
      simp [narrowRandom]
    · intro hbase
      obtain ⟨i, hi, heq⟩ := narrowRandom_spec _ r hbase
      exact ⟨i, hi, by rw [hsel, heq]⟩

/-- Witness for C4 (amended): the gateway clause at the gateway-configured
fixture, and the narrowing clause at a concrete two-upstream
configuration. -/
theorem C4_witness :
    selectUpstreams gwConfig (fun _ => none)
        (mkCtx Proto.udp (mkQuery 1 hostAB typeA) [9, 9, 9, 9]) 0 = ([gwUps], true) ∧
    ∃ i, ∃ hi : i < (getUpstreamsForDomain (mkConfig [upsA, upsB] 0).upstreamConfig
        hostABC).length,
      selectUpstreams (mkConfig [upsA, upsB] 0) (fun _ => none)
          (mkCtx Proto.udp (mkQuery 1 hostABC typeA) [9, 9, 9, 9]) 3 =
        ([(getUpstreamsForDomain (mkConfig [upsA, upsB] 0).upstreamConfig
            hostABC).get ⟨i, hi⟩], false) :=
  ⟨(C4_selectUpstreams_amended gwConfig (fun _ => none)
      (mkCtx Proto.udp (mkQuery 1 hostAB typeA) [9, 9, 9, 9]) 0).1 gwUps
      (by decide) (by decide),
    ((C4_selectUpstreams_amended (mkConfig [upsA, upsB] 0) (fun _ => none)
      (mkCtx Proto.udp (mkQuery 1 hostABC typeA) [9, 9, 9, 9]) 3).2
      (Or.inl (by decide)) rfl (by decide) rfl (by decide)).2 (by decide)⟩

/-! # Claim C1: response id and question match the request -/
/-- C1: a response produced by `handleExchangeResult` keeps the request's
id and question — the SERVFAIL branch builds them from the request, an
upstream response with an empty question section has the question
reconstructed from the request, and an upstream response with a non-empty
question keeps it under the exchange contract; the synthetic blocked-domain
response of `Resolve` is likewise built with the request's id and
question. -/
theorem C1_response_id_question (cfg : Config) (d : DNSContext) (req : Msg)
    (q : Question) (resp : Option Msg) (u : Option Upstream) (qd : Str) (t : Nat)
    (hq : req.question = [q])
    (hresp : ∀ m, resp = some m →
      m.id = req.id ∧ (m.question ≠ [] → m.question = req.question)) :
    (∃ m, (handleExchangeResult cfg d req resp u).res = some m ∧
      m.id = req.id ∧ m.question = req.question) ∧
    ((mkBlockedResponse req qd t).id = req.id ∧
      (mkBlockedResponse req qd t).question = req.question) := by
  refine ⟨?_, rfl, rfl⟩
  cases resp with
  | none =>
    refine ⟨newMsgSERVFAIL req, rfl, rfl, ?_⟩
    show (setReply req).question = req.question
    simp [setReply, hq]
  | some m =>
    obtain ⟨hid, hquest⟩ := hresp m rfl
    simp only [handleExchangeResult]
    by_cases hmq : m.question.length = 0
    · have hcond : req.question.length > 0 ∧ (setMinMaxTTL cfg m).question.length = 0 := by
        constructor
        · rw [hq]
          simp
        · simpa [setMinMaxTTL] using hmq
      rw [if_pos hcond]
      refine ⟨_, rfl, hid, ?_⟩
      show [req.question.headD default] = req.question
      rw [hq]
      rfl
    · have hcond : ¬(req.question.length > 0 ∧ (setMinMaxTTL cfg m).question.length = 0) := by
        intro hc
        exact hmq (by simpa [setMinMaxTTL] using hc.2)
      rw [if_neg hcond]
      refine ⟨_, rfl, hid, ?_⟩
      show m.question = req.question
      exact hquest fun h => hmq (by simp [h])

/-- Witness for C1: a request with one question and a missing upstream
response. -/
theorem C1_witness :
    (∃ m, (handleExchangeResult (mkConfig [upsA] 0) (mkCtx Proto.udp (mkQuery 7 hostABC typeA)
        [9, 9, 9, 9]) (mkQuery 7 hostABC typeA) none none).res = some m ∧
      m.id = (mkQuery 7 hostABC typeA).id ∧
      m.question = (mkQuery 7 hostABC typeA).question) ∧
    ((mkBlockedResponse (mkQuery 7 hostABC typeA) ['a'] typeA).id =
        (mkQuery 7 hostABC typeA).id ∧
      (mkBlockedResponse (mkQuery 7 hostABC typeA) ['a'] typeA).question =
        (mkQuery 7 hostABC typeA).question) :=
  C1_response_id_question (mkConfig [upsA] 0)
    (mkCtx Proto.udp (mkQuery 7 hostABC typeA) [9, 9, 9, 9]) (mkQuery 7 hostABC typeA)
    ⟨hostABC, typeA, classINET⟩ none none ['a'] typeA rfl (fun m hm => nomatch hm)

/-! # Claim C7: exchange without a response yields SERVFAIL -/
/-- C7: when the upstream exchange produces no response and the fallback
exchange (when fallbacks are configured) produces none either, the proxy
sets the response to a SERVFAIL message built from the request and clears
the context's `hasEDNS0` flag. -/
theorem performDNS64_none (cfg : Config) (req : Msg) (aResp : Option Msg) :
    performDNS64 cfg req none aResp = (none, false) := by
  unfold performDNS64
  by_cases h : cfg.useDNS64 = false
  · simp [h]
  · simp only [h, if_false]
    cases req.question <;> rfl

theorem isBogusNXDomain_none (cfg : Config) : isBogusNXDomain cfg none = false := rfl

theorem C7_servfail_no_response (cfg : Config) (ext : Externals) (d : DNSContext)
    (r : Nat) (recSt : List Fingerprint)
    (hups : (selectUpstreams cfg ext.extractRev d r).1 ≠ [])
    (hex : (ext.exchange (selectUpstreams cfg ext.extractRev d r).1 d.req).1 = none)
    (hfb : ∀ fb, cfg.fallbacks = some fb →
      (ext.fallbackExchange (getUpstreamsForDomain fb (d.req.question.headD default).name)
        d.req).1 = none) :
    (replyFromUpstream cfg ext d r recSt).d.res = some (newMsgSERVFAIL d.req) ∧
    (replyFromUpstream cfg ext d r recSt).d.hasEDNS0 = false ∧
    (replyFromUpstream cfg ext d r recSt).ok = false := by
  have hlen : ¬(selectUpstreams cfg ext.extractRev d r).1.length = 0 := by
    intro h
    exact hups (List.length_eq_zero.mp h)
  unfold replyFromUpstream
  dsimp only
  rw [if_neg hlen, hex, performDNS64_none]
  dsimp only
  simp only [isBogusNXDomain_none, Bool.not_false, Bool.true_and, Bool.and_false,
    Bool.false_eq_true, if_false]
  by_cases hc : ((ext.exchange (selectUpstreams cfg ext.extractRev d r).1 d.req).2.2 &&
      !(selectUpstreams cfg ext.extractRev d r).2 && cfg.fallbacks.isSome) = true
  · rw [if_pos hc]
    cases hcf : cfg.fallbacks with
    | none => exact ⟨rfl, rfl, rfl⟩
    | some fb =>
      dsimp only
      rw [hfb fb hcf]
      exact ⟨rfl, rfl, rfl⟩
  · rw [if_neg hc]
    exact ⟨rfl, rfl, rfl⟩

/-- Witness for C7: one upstream, failing exchanges, no fallbacks. -/
theorem C7_witness :
    (replyFromUpstream (mkConfig [upsA] 0) extNull
        (mkCtx Proto.udp (mkQuery 3 hostABC typeA) [9, 9, 9, 9]) 0 []).d.res =
      some (newMsgSERVFAIL (mkQuery 3 hostABC typeA)) ∧
    (replyFromUpstream (mkConfig [upsA] 0) extNull
        (mkCtx Proto.udp (mkQuery 3 hostABC typeA) [9, 9, 9, 9]) 0 []).d.hasEDNS0 = false ∧
    (replyFromUpstream (mkConfig [upsA] 0) extNull
        (mkCtx Proto.udp (mkQuery 3 hostABC typeA) [9, 9, 9, 9]) 0 []).ok = false :=
  C7_servfail_no_response (mkConfig [upsA] 0) extNull
    (mkCtx Proto.udp (mkQuery 3 hostABC typeA) [9, 9, 9, 9]) 0 []
    (by decide) rfl (fun fb h => nomatch h)

/-! # Claims C3 and C8: the rate-limit gate -/
theorem handleAfterGate_rl (cfg : Config) (ext : Externals) (hs : Hosts) (d : DNSContext)
    (r : Nat) (rl : RLState) (recSt : List Fingerprint) :
    (handleAfterGate cfg ext hs d r rl recSt).rl = rl := by
  unfold handleAfterGate
  dsimp only
  cases (validateRequest cfg ext.privateNets ext.extractRev recSt d).1 <;> rfl

theorem handleAfterGate_rl_indep (cfg : Config) (ext : Externals) (hs : Hosts)
    (d : DNSContext) (r : Nat) (rlA rlB : RLState) (recSt : List Fingerprint) :
    (handleAfterGate cfg ext hs d r rlA recSt).sent =
      (handleAfterGate cfg ext hs d r rlB recSt).sent ∧
    (handleAfterGate cfg ext hs d r rlA recSt).exchanged =
      (handleAfterGate cfg ext hs d r rlB recSt).exchanged := by
  unfold handleAfterGate
  dsimp only
  cases (validateRequest cfg ext.privateNets ext.extractRev recSt d).1 <;> exact ⟨rfl, rfl⟩

/-- C3: a ratelimited UDP query is dropped with no response and no
upstream exchange; queries arriving over the other transports never
consult the rate limiter — their outcome is independent of the bucket
state, which they leave unchanged. -/
theorem C3_ratelimit_udp_only (cfg : Config) (ext : Externals) (hs : Hosts)
    (d : DNSContext) (r : Nat) (rl rl2 : RLState) (recSt : List Fingerprint) (now : ℚ) :
    (d.proto = Proto.udp → d.req.response = false → ext.beforeAllow = true →
      (isRatelimited cfg rl now d.clientIP).1 = true →
      (handleDNSRequest cfg ext hs d r rl recSt now).sent = none ∧
      (handleDNSRequest cfg ext hs d r rl recSt now).exchanged = false) ∧
    (d.proto ≠ Proto.udp →
      (handleDNSRequest cfg ext hs d r rl recSt now).rl = rl ∧
      (handleDNSRequest cfg ext hs d r rl recSt now).sent =
        (handleDNSRequest cfg ext hs d r rl2 recSt now).sent ∧
      (handleDNSRequest cfg ext hs d r rl recSt now).exchanged =
        (handleDNSRequest cfg ext hs d r rl2 recSt now).exchanged) := by
  constructor
  · intro hp hnr hb hlim
    simp [handleDNSRequest, hnr, hb, hp, hlim]
  · intro hne
    by_cases hr : d.req.response = true
    · simp [handleDNSRequest, hr]
    · by_cases hb : ext.beforeAllow = true
      · simp only [handleDNSRequest, hr, hb, Bool.not_true, Bool.false_eq_true, if_false]
        rw [if_neg hne, if_neg hne]
        exact ⟨handleAfterGate_rl _ _ _ _ _ _ _, handleAfterGate_rl_indep _ _ _ _ _ _ _ _⟩
      · simp [handleDNSRequest, hr, hb]

/-- Evaluation of the rate limiter on the exhausted fixture: the query is
ratelimited and the bucket table is left with the same exhausted bucket. -/
theorem isRatelimited_exhausted :
    isRatelimited (mkConfig [upsA] 1) rlExhausted 0 [9, 9, 9, 1] = (true, rlExhausted) := by
  unfold isRatelimited
  rw [if_neg (by norm_num [mkConfig])]
  rw [if_neg (by simp [mkConfig])]
  have hkey : maskBytes [9, 9, 9, 1]
      (if ([9, 9, 9, 1] : List Nat).length = 4 then (mkConfig [upsA] 1).ratelimitPrefixV4
        else (mkConfig [upsA] 1).ratelimitPrefixV6) = [9, 9, 9, 0] := by
    decide
  dsimp only
  rw [hkey]
  have hget : (assocGet rlExhausted [9, 9, 9, 0]).getD ⟨(mkConfig [upsA] 1).ratelimit, 0⟩ =
      (⟨0, 0⟩ : RLBucket) := by
    simp [assocGet, rlExhausted]
  rw [hget]
  have href : min (mkConfig [upsA] 1).ratelimit
      ((0 : ℚ) + ((0 : ℚ) - (0 : ℚ)) * (mkConfig [upsA] 1).ratelimit) = 0 := by
    simp [mkConfig]
  rw [href]
  rw [if_neg (by norm_num)]
  simp [assocPut, rlExhausted]

/-- Witness for C3: an exhausted bucket drops the UDP query. -/
theorem C3_witness :
    (handleDNSRequest (mkConfig [upsA] 1) extNull []
        (mkCtx Proto.udp (mkQuery 2 hostABC typeA) [9, 9, 9, 1]) 0 rlExhausted [] 0).sent
      = none ∧
    (handleDNSRequest (mkConfig [upsA] 1) extNull []
        (mkCtx Proto.udp (mkQuery 2 hostABC typeA) [9, 9, 9, 1]) 0 rlExhausted [] 0).exchanged
      = false :=
  (C3_ratelimit_udp_only (mkConfig [upsA] 1) extNull []
    (mkCtx Proto.udp (mkQuery 2 hostABC typeA) [9, 9, 9, 1]) 0 rlExhausted rlExhausted [] 0).1
    rfl rfl rfl (by simp [mkCtx, isRatelimited_exhausted])

/-- C8 counterexample: a UDP query with an empty question section from an
exhausted bucket is dropped with no response, although validation would
answer it synthetically with SERVFAIL — the gate precedes validation and
the claim's order is reversed.  -/
theorem C8_counterexample :
    (handleDNSRequest (mkConfig [upsA] 1) extNull []
        (mkCtx Proto.udp { mkQuery 5 hostABC typeA with question := [] } [9, 9, 9, 1])
        0 rlExhausted [] 0).sent = none ∧
    (validateRequest (mkConfig [upsA] 1) extNull.privateNets extNull.extractRev []
        (mkCtx Proto.udp { mkQuery 5 hostABC typeA with question := [] } [9, 9, 9, 1])).1 =
      some (newMsgSERVFAIL { mkQuery 5 hostABC typeA with question := [] }) := by
  constructor
  · simp [handleDNSRequest, mkCtx, mkQuery, extNull, isRatelimited_exhausted]
  · decide

/-- C8 (amended): for UDP queries the rate-limit gate runs before
validation: a ratelimited query is dropped even when validation would
produce a synthetic response, and the bucket is consumed for every UDP
query that reaches the gate, whatever the validation outcome. -/
theorem C8_gate_before_validation (cfg : Config) (ext : Externals) (hs : Hosts)
    (d : DNSContext) (r : Nat) (rl : RLState) (recSt : List Fingerprint) (now : ℚ)
    (hp : d.proto = Proto.udp) (hnr : d.req.response = false) (hb : ext.beforeAllow = true) :
    ((isRatelimited cfg rl now d.clientIP).1 = true →
      (handleDNSRequest cfg ext hs d r rl recSt now).sent = none ∧
      (handleDNSRequest cfg ext hs d r rl recSt now).exchanged = false) ∧
    (handleDNSRequest cfg ext hs d r rl recSt now).rl =
      (isRatelimited cfg rl now d.clientIP).2 ∧
    ((isRatelimited cfg rl now d.clientIP).1 = false →
      handleDNSRequest cfg ext hs d r rl recSt now =
        handleAfterGate cfg ext hs
          { d with isPrivateClient := ext.privateNets d.clientIP } r
          (isRatelimited cfg rl now d.clientIP).2 recSt) := by
  refine ⟨?_, ?_, ?_⟩
  · intro hlim
    simp [handleDNSRequest, hnr, hb, hp, hlim]
  · by_cases hlim : (isRatelimited cfg rl now d.clientIP).1 = true
    · simp [handleDNSRequest, hnr, hb, hp, hlim]
    · simp only [Bool.not_eq_true] at hlim
      simp only [handleDNSRequest, hnr, hb, hp, hlim, Bool.not_true, Bool.false_eq_true,
        if_false, if_true, Bool.true_eq_false]
      rw [handleAfterGate_rl]
  · intro hlim
    simp [handleDNSRequest, hnr, hb, hp, hlim]

/-- Witness for C8 (amended) at the exhausted-bucket fixture. -/
theorem C8_witness :
    (((isRatelimited (mkConfig [upsA] 1) rlExhausted 0 [9, 9, 9, 1]).1 = true →
      (handleDNSRequest (mkConfig [upsA] 1) extNull []
          (mkCtx Proto.udp (mkQuery 6 hostABC typeA) [9, 9, 9, 1]) 0 rlExhausted [] 0).sent
        = none ∧
      (handleDNSRequest (mkConfig [upsA] 1) extNull []
          (mkCtx Proto.udp (mkQuery 6 hostABC typeA) [9, 9, 9, 1]) 0 rlExhausted [] 0).exchanged
        = false) ∧
    (handleDNSRequest (mkConfig [upsA] 1) extNull []
        (mkCtx Proto.udp (mkQuery 6 hostABC typeA) [9, 9, 9, 1]) 0 rlExhausted [] 0).rl =
      (isRatelimited (mkConfig [upsA] 1) rlExhausted 0 [9, 9, 9, 1]).2 ∧
    ((isRatelimited (mkConfig [upsA] 1) rlExhausted 0 [9, 9, 9, 1]).1 = false →
      handleDNSRequest (mkConfig [upsA] 1) extNull []
          (mkCtx Proto.udp (mkQuery 6 hostABC typeA) [9, 9, 9, 1]) 0 rlExhausted [] 0 =
        handleAfterGate (mkConfig [upsA] 1) extNull []
          { mkCtx Proto.udp (mkQuery 6 hostABC typeA) [9, 9, 9, 1] with
            isPrivateClient := extNull.privateNets [9, 9, 9, 1] } 0
          (isRatelimited (mkConfig [upsA] 1) rlExhausted 0 [9, 9, 9, 1]).2 [])) :=
  C8_gate_before_validation (mkConfig [upsA] 1) extNull []
    (mkCtx Proto.udp (mkQuery 6 hostABC typeA) [9, 9, 9, 1]) 0 rlExhausted [] 0
    rfl rfl rfl

/-! # Claim C2: blocked-domain responses -/
theorem addOptionToMsg_question (m : Msg) (e : EDNSOption) :
    (addOptionToMsg m e).question = m.question := by
  unfold addOptionToMsg
  cases isEdns0 m <;> rfl

theorem setECS_question (m : Msg) (ip : List Nat) (s : Nat) :
    (setECS m ip s).1.question = m.question := by
  unfold setECS
  cases to4 ip <;> simp [addOptionToMsg_question]

theorem processECSAdd_question (isS : List Nat → Bool) (ea : Option (List Nat))
    (d : DNSContext) : (processECSAdd isS ea d).req.question = d.req.question := by
  unfold processECSAdd
  dsimp only
  split
  · rfl
  · exact setECS_question _ _ _

theorem processECS_question (isS : List Nat → Bool) (ea : Option (List Nat))
    (d : DNSContext) : (processECS isS ea d).req.question = d.req.question := by
  unfold processECS
  cases ecsFromMsg d.req with
  | none => exact processECSAdd_question _ _ _
  | some pr =>
    dsimp only
    split
    · rfl
    · exact processECSAdd_question _ _ _

theorem calcFlagsAndSize_req (d : DNSContext) : (calcFlagsAndSize d).req = d.req := by
  unfold calcFlagsAndSize
  cases isEdns0 d.req <;> rfl

theorem blockedScan_single (hs : Hosts) (req : Msg) (q : Question)
    (hq : req.question = [q]) (ht : q.qtype = typeA ∨ q.qtype = typeAAAA)
    (hb : checkDomain hs (trimSuffixDot q.name) = true) :
    blockedScan hs req =
      (some (mkBlockedResponse req (trimSuffixDot q.name) q.qtype),
        trimSuffixDot q.name) := by
  unfold blockedScan
  rw [hq]
  simp only [List.foldl_cons, List.foldl_nil]
  rw [if_pos ht, if_pos hb]

/-- C2: for a single A or AAAA question whose trimmed domain matches the
blocklist, `Resolve` produces a NOERROR response whose answer section is
exactly one A `0.0.0.0` (respectively AAAA `::`) record with TTL 3600, and
the upstream exchange step is never invoked. -/
theorem C2_blocked_response (cfg : Config) (ext : Externals) (hs : Hosts)
    (d : DNSContext) (r : Nat) (recSt : List Fingerprint) (q : Question)
    (hq : d.req.question = [q])
    (ht : q.qtype = typeA ∨ q.qtype = typeAAAA)
    (hb : checkDomain hs (trimSuffixDot q.name) = true) :
    (Resolve cfg ext hs d r recSt).exchanged = false ∧
    ∃ m, (Resolve cfg ext hs d r recSt).d.res = some m ∧
      m.rcode = rcodeSuccess ∧
      m.answer.length = 1 ∧
      (q.qtype = typeA →
        m.answer = [⟨⟨trimSuffixDot q.name ++ [dotc], typeA, classINET, 3600⟩,
          RData.ipv4 [0, 0, 0, 0]⟩]) ∧
      (q.qtype = typeAAAA →
        m.answer = [⟨⟨trimSuffixDot q.name ++ [dotc], typeAAAA, classINET, 3600⟩,
          RData.ipv6 (List.replicate 16 0)⟩]) := by
  unfold Resolve
  dsimp only
  set d1 := if cfg.enableEDNSClientSubnet then processECS ext.isSpecial cfg.ednsAddr d else d
    with hd1
  have h1 : d1.req.question = [q] := by
    rw [hd1]
    split
    · rw [processECS_question]
      exact hq
    · exact hq
  have h2 : (calcFlagsAndSize d1).req.question = [q] := by
    rw [calcFlagsAndSize_req]
    exact h1
  rw [blockedScan_single hs (calcFlagsAndSize d1).req q h2 ht hb]
  dsimp only
  refine ⟨rfl, filterMsg (mkBlockedResponse (calcFlagsAndSize d1).req (trimSuffixDot q.name)
    q.qtype) (calcFlagsAndSize d1).adBit (calcFlagsAndSize d1).doBit, rfl, rfl, ?_, ?_, ?_⟩
  · rcases ht with hA | hAA
    · simp [filterMsg, mkBlockedResponse, hA, filterRRList, List.filter, isDNSSECType,
        typeA, typeRRSIG, typeNSEC, typeNSEC3, typeDNSKEY]
    · simp [filterMsg, mkBlockedResponse, hAA, filterRRList, List.filter, isDNSSECType,
        typeA, typeAAAA, typeRRSIG, typeNSEC, typeNSEC3, typeDNSKEY]
  · intro hA
    simp [filterMsg, mkBlockedResponse, hA, filterRRList, List.filter, isDNSSECType,
      typeA, typeRRSIG, typeNSEC, typeNSEC3, typeDNSKEY]
  · intro hAA
    simp [filterMsg, mkBlockedResponse, hAA, filterRRList, List.filter, isDNSSECType,
      typeA, typeAAAA, typeRRSIG, typeNSEC, typeNSEC3, typeDNSKEY]

/-- Witness for C2: a blocklist holding the exact pattern `a.b.c` blocks
the A query for `a.b.c.`. -/
theorem C2_witness :
    (Resolve (mkConfig [upsA] 0) extNull (mkHosts [['a', '.', 'b', '.', 'c']])
        (mkCtx Proto.udp (mkQuery 9 hostABC typeA) [9, 9, 9, 9]) 0 []).exchanged = false ∧
    ∃ m, (Resolve (mkConfig [upsA] 0) extNull (mkHosts [['a', '.', 'b', '.', 'c']])
        (mkCtx Proto.udp (mkQuery 9 hostABC typeA) [9, 9, 9, 9]) 0 []).d.res = some m ∧
      m.rcode = rcodeSuccess ∧
      m.answer.length = 1 ∧
      (typeA = typeA →
        m.answer = [⟨⟨['a', '.', 'b', '.', 'c'] ++ [dotc], typeA, classINET, 3600⟩,
          RData.ipv4 [0, 0, 0, 0]⟩]) ∧
      (typeA = typeAAAA →
        m.answer = [⟨⟨['a', '.', 'b', '.', 'c'] ++ [dotc], typeAAAA, classINET, 3600⟩,
          RData.ipv6 (List.replicate 16 0)⟩]) :=
  C2_blocked_response (mkConfig [upsA] 0) extNull (mkHosts [['a', '.', 'b', '.', 'c']])
    (mkCtx Proto.udp (mkQuery 9 hostABC typeA) [9, 9, 9, 9]) 0 []
    ⟨hostABC, typeA, classINET⟩ rfl (Or.inl rfl) (by decide)

/-! # Claim C6: validation order -/
theorem isForbiddenARPA_req (pn : List Nat → Bool) (er : Str → Option RevPref)
    (d : DNSContext) : (isForbiddenARPA pn er d).2.req = d.req := by
  unfold isForbiddenARPA
  dsimp only
  split
  · cases er (d.req.question.headD default).name with
    | none => rfl
    | some pref =>
      dsimp only
      split
      · rfl
      · rfl
  · rfl

/-- C6: `validateRequest` applies its checks in source order, each
producing its synthetic response: question count ≠ 1 yields SERVFAIL; then
refuse-any with qtype ANY yields NOTIMPLEMENTED carrying an OPT record;
then a detected recursion yields NXDOMAIN; then a PTR/SOA/NS request whose
name parses to a private reversed address, from a non-private client,
yields NXDOMAIN. -/
theorem C6_validateRequest_order (cfg : Config) (pn : List Nat → Bool)
    (er : Str → Option RevPref) (recSt : List Fingerprint) (d : DNSContext) :
    (d.req.question.length ≠ 1 →
      (validateRequest cfg pn er recSt d).1 = some (newMsgSERVFAIL d.req)) ∧
    (d.req.question.length = 1 → cfg.refuseAny = true →
      (d.req.question.headD default).qtype = typeANY →
      (validateRequest cfg pn er recSt d).1 = some (newMsgNOTIMPLEMENTED d.req) ∧
        hasOPT (newMsgNOTIMPLEMENTED d.req) = true) ∧
    (d.req.question.length = 1 →
      (cfg.refuseAny = false ∨ (d.req.question.headD default).qtype ≠ typeANY) →
      recCheck recSt d.req = true →
      (validateRequest cfg pn er recSt d).1 = some (newMsgNXDOMAIN d.req)) ∧
    (d.req.question.length = 1 →
      (cfg.refuseAny = false ∨ (d.req.question.headD default).qtype ≠ typeANY) →
      recCheck recSt d.req = false →
      ((d.req.question.headD default).qtype = typePTR ∨
        (d.req.question.headD default).qtype = typeSOA ∨
        (d.req.question.headD default).qtype = typeNS) →
      ∀ pref, er (d.req.question.headD default).name = some pref →
        pn pref.addr = true → d.isPrivateClient = false →
        (validateRequest cfg pn er recSt d).1 = some (newMsgNXDOMAIN d.req)) := by
  have hany : ∀ (h1 : d.req.question.length = 1),
      (cfg.refuseAny = false ∨ (d.req.question.headD default).qtype ≠ typeANY) →
      (cfg.refuseAny && decide ((d.req.question.headD default).qtype = typeANY)) = false := by
    intro _ hor
    rcases hor with hra | hq
    · rw [hra, Bool.false_and]
    · rw [decide_eq_false hq, Bool.and_false]
  refine ⟨?_, ?_, ?_, ?_⟩
  · intro h
    unfold validateRequest
    rw [if_pos h]
  · intro h1 hra hq
    unfold validateRequest
    rw [if_neg (fun hh => hh h1), if_pos (by rw [hra, hq]; decide)]
    exact ⟨rfl, rfl⟩
  · intro h1 hor hrec
    unfold validateRequest
    rw [if_neg (fun hh => hh h1), if_neg (by rw [hany h1 hor]; simp), if_pos hrec]
  · intro h1 hor hrec htype pref hpref hpn hcli
    have hforb : (isForbiddenARPA pn er d).1 = true := by
      unfold isForbiddenARPA
      dsimp only
      rw [if_pos htype, hpref]
      dsimp only
      rw [if_pos hpn, hcli]
      rfl
    unfold validateRequest
    rw [if_neg (fun hh => hh h1), if_neg (by rw [hany h1 hor]; simp), if_neg (by simp [hrec])]
    dsimp only
    rw [if_pos hforb, isForbiddenARPA_req]

/-- Witness for C6: the four validation outcomes at concrete requests. -/
theorem C6_witness :
    ((validateRequest (mkConfig [upsA] 0) extNull.privateNets extNull.extractRev []
        (mkCtx Proto.udp { mkQuery 1 hostABC typeA with question := [] } [7])).1 =
      some (newMsgSERVFAIL { mkQuery 1 hostABC typeA with question := [] })) ∧
    ((validateRequest { mkConfig [upsA] 0 with refuseAny := true } extNull.privateNets
        extNull.extractRev [] (mkCtx Proto.udp (mkQuery 2 hostABC typeANY) [7])).1 =
      some (newMsgNOTIMPLEMENTED (mkQuery 2 hostABC typeANY)) ∧
      hasOPT (newMsgNOTIMPLEMENTED (mkQuery 2 hostABC typeANY)) = true) ∧
    ((validateRequest (mkConfig [upsA] 0) extNull.privateNets extNull.extractRev
        [msgFingerprint (mkQuery 3 hostABC typeA)]
        (mkCtx Proto.udp (mkQuery 3 hostABC typeA) [7])).1 =
      some (newMsgNXDOMAIN (mkQuery 3 hostABC typeA))) ∧
    ((validateRequest (mkConfig [upsA] 0) (fun a => decide (a.headD 0 = 10))
        (fun _ => some ⟨[10, 0, 0, 1], 8⟩) []
        (mkCtx Proto.udp (mkQuery 4 hostABC typePTR) [7])).1 =
      some (newMsgNXDOMAIN (mkQuery 4 hostABC typePTR))) := by
  refine ⟨?_, ?_, ?_, ?_⟩
  · exact (C6_validateRequest_order (mkConfig [upsA] 0) extNull.privateNets
      extNull.extractRev []
      (mkCtx Proto.udp { mkQuery 1 hostABC typeA with question := [] } [7])).1 (by decide)
  · exact (C6_validateRequest_order { mkConfig [upsA] 0 with refuseAny := true }
      extNull.privateNets extNull.extractRev []
      (mkCtx Proto.udp (mkQuery 2 hostABC typeANY) [7])).2.1 (by decide) rfl (by decide)
  · exact (C6_validateRequest_order (mkConfig [upsA] 0) extNull.privateNets
      extNull.extractRev [msgFingerprint (mkQuery 3 hostABC typeA)]
      (mkCtx Proto.udp (mkQuery 3 hostABC typeA) [7])).2.2.1 (by decide)
      (Or.inl rfl) (by decide)
  · exact (C6_validateRequest_order (mkConfig [upsA] 0) (fun a => decide (a.headD 0 = 10))
      (fun _ => some ⟨[10, 0, 0, 1], 8⟩) []
      (mkCtx Proto.udp (mkQuery 4 hostABC typePTR) [7])).2.2.2 (by decide)
      (Or.inl rfl) (by decide) (Or.inl rfl) ⟨[10, 0, 0, 1], 8⟩ rfl (by decide) rfl

theorem mem_filterMap_subnet (sn : SubnetOption) (opts : List EDNSOption) :
    sn ∈ opts.filterMap (fun e =>
      match e with
      | EDNSOption.subnet s => some s
      | EDNSOption.other _ => none) ↔ EDNSOption.subnet sn ∈ opts := by
  rw [List.mem_filterMap]
  constructor
  · rintro ⟨e, he, hf⟩
    cases e with
    | subnet s =>
      simp only [Option.some.injEq] at hf
      subst hf
      exact he
    | other c => simp at hf
  · intro h
    exact ⟨_, h, rfl⟩

theorem mem_msgECSOptions (m : Msg) (sn : SubnetOption) :
    sn ∈ msgECSOptions m ↔
      ∃ rr ∈ m.extra, ∃ od, optPayload rr = some od ∧
        EDNSOption.subnet sn ∈ od.options := by
  unfold msgECSOptions
  rw [List.mem_join]
  constructor
  · rintro ⟨s, hs, hsn⟩
    rw [List.mem_map] at hs
    obtain ⟨rr, hrr, heq⟩ := hs
    subst heq
    cases hop : optPayload rr with
    | none =>
      rw [hop] at hsn
      simp at hsn
    | some od =>
      rw [hop] at hsn
      exact ⟨rr, hrr, od, hop, (mem_filterMap_subnet sn od.options).mp hsn⟩
  · rintro ⟨rr, hrr, od, hop, hmem⟩
    refine ⟨_, List.mem_map_of_mem _ hrr, ?_⟩
    rw [hop]
    exact (mem_filterMap_subnet sn od.options).mpr hmem

theorem optPayload_rrtype (rr : RR) (o : OptData) (h : optPayload rr = some o) :
    rr.hdr.rrtype = typeOPT := by
  by_contra hc
  simp [optPayload, hc] at h

theorem mapFirstOpt_mem_add (rrs : List RR) (e : EDNSOption) (o : OptData)
    (h : rrs.findSome? optPayload = some o) :
    ∃ rr ∈ mapFirstOpt rrs (fun od => { od with options := od.options ++ [e] }),
      ∃ od, optPayload rr = some od ∧ e ∈ od.options := by
  induction rrs with
  | nil => simp [List.findSome?_nil] at h
  | cons rr rest ih =>
    rw [List.findSome?_cons] at h
    cases hp : optPayload rr with
    | some o2 =>
      have htype : rr.hdr.rrtype = typeOPT := optPayload_rrtype rr o2 hp
      refine ⟨{ rr with rdata := RData.opt { o2 with options := o2.options ++ [e] } },
        ?_, { o2 with options := o2.options ++ [e] }, ?_, by simp⟩
      · simp [mapFirstOpt, hp]
      · simp [optPayload, htype]
    | none =>
      rw [hp] at h
      obtain ⟨rr2, hmem, hrest⟩ := ih h
      exact ⟨rr2, by simp [mapFirstOpt, hp, hmem], hrest⟩

theorem mapLastOpt_mem_add (rrs : List RR) (e : EDNSOption) (o : OptData)
    (h : rrs.reverse.findSome? optPayload = some o) :
    ∃ rr ∈ mapLastOpt rrs (fun od => { od with options := od.options ++ [e] }),
      ∃ od, optPayload rr = some od ∧ e ∈ od.options := by
  obtain ⟨rr, hmem, hrest⟩ := mapFirstOpt_mem_add rrs.reverse e o h
  exact ⟨rr, List.mem_reverse.mpr hmem, hrest⟩

theorem addOption_has_subnet (m : Msg) (sn : SubnetOption) :
    sn ∈ msgECSOptions (addOptionToMsg m (EDNSOption.subnet sn)) := by
  unfold addOptionToMsg
  cases hed : isEdns0 m with
  | none =>
    rw [mem_msgECSOptions]
    refine ⟨mkOptRR 4096 false [EDNSOption.subnet sn], by simp,
      ⟨4096, false, [EDNSOption.subnet sn]⟩, ?_, by simp⟩
    simp [optPayload, mkOptRR]
  | some o =>
    obtain ⟨rr, hmem, od, hod, hin⟩ :=
      mapLastOpt_mem_add m.extra (EDNSOption.subnet sn) o hed
    rw [mem_msgECSOptions]
    exact ⟨rr, hmem, od, hod, hin⟩

theorem setECS_v4 (m : Msg) (ip ip4 : List Nat) (s : Nat) (h : to4 ip = some ip4) :
    (setECS m ip s).2 = ⟨maskBytes ip4 24, 24, 32⟩ ∧
    (⟨1, 24, s, maskBytes ip4 24⟩ : SubnetOption) ∈ msgECSOptions (setECS m ip s).1 := by
  unfold setECS
  rw [h]
  exact ⟨rfl, addOption_has_subnet m _⟩

theorem setECS_v6 (m : Msg) (ip : List Nat) (s : Nat) (h : to4 ip = none) :
    (setECS m ip s).2 = ⟨maskBytes ip 56, 56, 128⟩ ∧
    (⟨2, 56, s, maskBytes ip 56⟩ : SubnetOption) ∈ msgECSOptions (setECS m ip s).1 := by
  unfold setECS
  rw [h]
  exact ⟨rfl, addOption_has_subnet m _⟩

/-- C9 counterexample: with the loopback client `127.0.0.1` — a
special-purpose address — and no incoming ECS option, `processECS` leaves
the request entirely unchanged: no ECS option is added, contradicting the
claim that every such request is forwarded with an ECS option carrying the
masked client address. -/
theorem C9_counterexample :
    ecsFromMsg (mkCtx Proto.udp (mkQuery 11 hostABC typeA) [127, 0, 0, 1]).req = none ∧
    netutilIsSpecialPurpose [127, 0, 0, 1] = true ∧
    processECS netutilIsSpecialPurpose none
        (mkCtx Proto.udp (mkQuery 11 hostABC typeA) [127, 0, 0, 1]) =
      mkCtx Proto.udp (mkQuery 11 hostABC typeA) [127, 0, 0, 1] ∧
    msgECSOptions (processECS netutilIsSpecialPurpose none
        (mkCtx Proto.udp (mkQuery 11 hostABC typeA) [127, 0, 0, 1])).req = [] :=
  ⟨by decide, by decide, by decide, by decide⟩

/-- C9 (amended): an incoming ECS option with a non-zero source prefix is
recorded and passed through unchanged; otherwise, provided the client
address (the configured EDNS address, else the connection address) is not
an IANA special-purpose address, the forwarded request carries an added
ECS option with family 1, a /24 mask and the masked client address for
IPv4 (family 2 and /56 for IPv6), SCOPE PREFIX-LENGTH 0; for
special-purpose client addresses nothing is added. -/
theorem C9_processECS_amended (isS : List Nat → Bool) (ea : Option (List Nat))
    (d : DNSContext) :
    (∀ ecs sc, ecsFromMsg d.req = some (ecs, sc) → ecs.ones ≠ 0 →
      processECS isS ea d = { d with reqECS := some ecs }) ∧
    ((∀ ecs sc, ecsFromMsg d.req = some (ecs, sc) → ecs.ones = 0) →
      (isS (ea.getD d.clientIP) = true → processECS isS ea d = d) ∧
      (isS (ea.getD d.clientIP) = false →
        (∀ ip4, to4 (ea.getD d.clientIP) = some ip4 →
          (⟨1, 24, 0, maskBytes ip4 24⟩ : SubnetOption) ∈
            msgECSOptions (processECS isS ea d).req ∧
          (processECS isS ea d).reqECS = some ⟨maskBytes ip4 24, 24, 32⟩) ∧
        (to4 (ea.getD d.clientIP) = none →
          (⟨2, 56, 0, maskBytes (ea.getD d.clientIP) 56⟩ : SubnetOption) ∈
            msgECSOptions (processECS isS ea d).req ∧
          (processECS isS ea d).reqECS =
            some ⟨maskBytes (ea.getD d.clientIP) 56, 56, 128⟩))) := by
  constructor
  · intro ecs sc h hne
    unfold processECS
    rw [h]
    dsimp only
    rw [if_pos hne]
  · intro hzero
    have hpe : processECS isS ea d = processECSAdd isS ea d := by
      unfold processECS
      cases hh : ecsFromMsg d.req with
      | none => rfl
      | some pr =>
        dsimp only
        have h0 : pr.1.ones = 0 := hzero pr.1 pr.2 (by rw [hh])
        rw [if_neg (fun hne => hne h0)]
    constructor
    · intro hsp
      rw [hpe]
      unfold processECSAdd
      dsimp only
      rw [if_pos hsp]
    · intro hsp
      constructor
      · intro ip4 h4
        rw [hpe]
        unfold processECSAdd
        dsimp only
        rw [if_neg (by simp [hsp])]
        obtain ⟨h2eq, hmem⟩ := setECS_v4 d.req (ea.getD d.clientIP) ip4 0 h4
        exact ⟨hmem, by rw [h2eq]⟩
      · intro h6
        rw [hpe]
        unfold processECSAdd
        dsimp only
        rw [if_neg (by simp [hsp])]
        obtain ⟨h2eq, hmem⟩ := setECS_v6 d.req (ea.getD d.clientIP) 0 h6
        exact ⟨hmem, by rw [h2eq]⟩

/-- Witness for C9 (amended): the public client `1.2.3.4` gets the masked
`/24` ECS option `1.2.3.0` with scope 0. -/
theorem C9_witness :
    (⟨1, 24, 0, maskBytes [1, 2, 3, 4] 24⟩ : SubnetOption) ∈
      msgECSOptions (processECS netutilIsSpecialPurpose none
        (mkCtx Proto.udp (mkQuery 12 hostABC typeA) [1, 2, 3, 4])).req ∧
    (processECS netutilIsSpecialPurpose none
        (mkCtx Proto.udp (mkQuery 12 hostABC typeA) [1, 2, 3, 4])).reqECS =
      some ⟨maskBytes [1, 2, 3, 4] 24, 24, 32⟩ :=
  ((((C9_processECS_amended netutilIsSpecialPurpose none
      (mkCtx Proto.udp (mkQuery 12 hostABC typeA) [1, 2, 3, 4])).2
    (fun ecs sc h => nomatch h)).2 (by decide)).1 [1, 2, 3, 4] (by decide))

end DnsProxy
